import Mathlib

/-!
# PointVector: `geomdl::Point<T, S>` and `geomdl::Vector<T, S>`

A shallow embedding of `include/Point.hxx` and `include/Vector.hxx`.

* The component type `T` is taken with exact arithmetic: a linearly ordered field.
* An object is the record of its two data members: the run-time `dim` and the
  storage `coord` / `comp`, a list of slots.  Nothing in the record type forces
  `dim = S` or the slot count; that is the predicate `Valid`, established by the
  constructors.
* `a[i]` on the storage is `List.getD a i 0` and `a[i] = v` is `List.set a i v`.
  Indices outside the storage are undefined behaviour in C++; the statements below
  are about `Valid` objects, on which no such index is touched.
* A parameter passed by value, and a returned object, is the value itself: the copy
  constructor reproduces a `Valid` object exactly (`vector_ctor_copy_eq`,
  `point_ctor_copy_eq`).
* A `for (i = 0; i < n; ++i)` loop is `forLoop`, running the body at `0, 1, ..., n-1`.
* A `throw` is the `Except.error` result.
* A `std::istream` is the unread characters and `failbit`; a `std::ostream` is the
  text written so far.  Extraction and insertion of a single `T` belong to the
  standard library: `extract` follows the C++11 rules (classic locale, default
  flags) around the outcome `numGet` of the numeric parser, and `render` is the text
  `os << x` writes; both are parameters, with the decimal integer parser
  `numGetInt` as an instance.
* A pointer into the storage (`begin()`, `end()`, `data()`) is an offset into the
  list of slots.
* For a signed integer `T` the comparison of `operator==` is `eqLoopInt`: the
  difference and `std::abs` are taken in two's complement on `w` bits.
-/

namespace geomdl

/-- The `<stdexcept>` exceptions thrown by the two classes, with their message. -/
inductive Error where
  | range_error (what : String)
  | runtime_error (what : String)
  deriving DecidableEq, Repr

/-- The loop `for (i = 0; i < n; ++i) body(i)` on a state of type `σ`. -/
def forLoop {σ : Type} (body : Nat → σ → σ) : Nat → σ → σ
  | 0, s => s
  | n + 1, s => body n (forLoop body n s)

/-- Outcome of the numeric parse of `std::num_get` on a text: a value read, or a
failure; either way with the text left unread.  A failure carries what the
extraction stores in its target. -/
inductive NumResult (T : Type) where
  | value (v : T) (rest : List Char)
  | failure (stored : T) (rest : List Char)
  deriving DecidableEq, Repr

/-- Whether the numeric parse failed: no value of `T` could be read, because the
text does not begin a number or because the number is out of the range of `T`. -/
def NumResult.failed {T : Type} : NumResult T → Bool
  | .value _ _ => false
  | .failure _ _ => true

section Model

variable {T : Type} [LinearOrderedField T]

/-- The macro `GPV_POINTVECTOR_EVAL_TOL`, the literal `10e-5`. -/
def GPV_POINTVECTOR_EVAL_TOL : T := 10e-5

/-- An array `T arr[S]` initialised as `arr{v}`: `S` slots, slot 0 takes `v`, every
other slot is value-initialised to zero. -/
def arrayInit (S : Nat) (v : T) : List T := (List.replicate S 0).set 0 v

/-- The call `std::copy(src, src + n, dst)`: `dst[i] = src[i]` for `i` in `[0, n)`. -/
def stdCopy (src : List T) (n : Nat) (dst : List T) : List T :=
  forLoop (fun i d => d.set i (src.getD i 0)) n dst

/-- State of a `std::istream` reading from a character buffer: the characters not
yet consumed and the `failbit` flag (`operator bool` of the stream is its negation). -/
structure IStream where
  buf : List Char
  failbit : Bool
  deriving DecidableEq, Repr

/-- The white-space class of the classic "C" locale, `std::isspace`: space, `\t`,
`\n`, `\v`, `\f` and `\r`.  It is what a stream skips before a formatted
extraction. -/
def isspace (c : Char) : Bool :=
  c = ' ' || c = '\t' || c = '\n' || c = Char.ofNat 11 || c = Char.ofNat 12 || c = '\r'

/-- The standard formatted extraction `is >> x` for an arithmetic `x` (C++11 rules,
default flags), with `numGet` the outcome of `std::num_get` for `T` on the text
that follows the leading white space.
A stream that is already failed, or that is exhausted while skipping leading
white space, leaves `x` as it is and is failed; otherwise the parser runs: a
value read is stored, a failure sets `failbit` and stores what the parser stores
(zero, or the extreme value for a number out of range); in both cases the stream
continues after the characters the parser consumed. -/
def extract (numGet : List Char → NumResult T) (is : IStream) (x : T) :
    IStream × T :=
  if is.failbit then (is, x)
  else
    match is.buf.dropWhile isspace with
    | [] => ({ buf := [], failbit := true }, x)
    | c :: cs =>
      match numGet (c :: cs) with
      | .value v rest => ({ buf := rest, failbit := false }, v)
      | .failure stored rest => ({ buf := rest, failbit := true }, stored)

/-- The loop shared by the two `operator>>`, on the bare storage: iteration `i` is
`is >> c[i]`. -/
def readSlots (numGet : List Char → NumResult T) (n : Nat) (is : IStream)
    (c : List T) : IStream × List T :=
  forLoop (fun i st =>
    let r := extract numGet st.1 (st.2.getD i 0)
    (r.1, st.2.set i r.2)) n (is, c)

/-- Value of a run of decimal digits, most significant first. -/
def digitsValue (ds : List Char) : Nat :=
  ds.foldl (fun acc d => 10 * acc + (d.toNat - 48)) 0

/-- Unsigned decimal integer at the head of the input. -/
def numGetNat (cs : List Char) : Option (Nat × List Char) :=
  match cs.takeWhile Char.isDigit with
  | [] => none
  | d :: ds => some (digitsValue (d :: ds), cs.dropWhile Char.isDigit)

/-- An instance of `numGet` for exact arithmetic: an optionally signed decimal
integer, converted to `T`.  Without a digit the parse fails, storing zero, with
the sign (if any) consumed. -/
def numGetInt (cs : List Char) : NumResult T :=
  match cs with
  | '-' :: rest =>
    match numGetNat rest with
    | some p => .value (-(p.1 : T)) p.2
    | none => .failure 0 rest
  | '+' :: rest =>
    match numGetNat rest with
    | some p => .value (p.1 : T) p.2
    | none => .failure 0 rest
  | _ =>
    match numGetNat cs with
    | some p => .value (p.1 : T) p.2
    | none => .failure 0 cs

/-- An instance of `numGet` for a type of bounded range, as a two's complement
integer with largest value `limit`: the decimal parser, which on a number out of
range fails with the digits consumed and the extreme value stored. -/
def numGetCapped (limit : Nat) (cs : List Char) : NumResult T :=
  match cs with
  | '-' :: rest =>
    match numGetNat rest with
    | some p =>
      if limit + 1 < p.1 then .failure (-((limit + 1 : Nat) : T)) p.2
      else .value (-(p.1 : T)) p.2
    | none => .failure 0 rest
  | '+' :: rest =>
    match numGetNat rest with
    | some p => if limit < p.1 then .failure (limit : T) p.2 else .value (p.1 : T) p.2
    | none => .failure 0 rest
  | _ =>
    match numGetNat cs with
    | some p => if limit < p.1 then .failure (limit : T) p.2 else .value (p.1 : T) p.2
    | none => .failure 0 cs

/-- Where a token may end: the text is exhausted or continues with white space. -/
def tokenEnd : List Char → Bool
  | [] => true
  | c :: _ => isspace c

/-- A numeric token of value `v` for `numGet`: a non-empty word free of white space
that `numGet` reads whole, with value `v`, wherever the token ends. -/
def NumericToken (numGet : List Char → NumResult T) (tok : List Char)
    (v : T) : Prop :=
  tok ≠ [] ∧ (∀ c ∈ tok, isspace c = false) ∧
    ∀ rest, tokenEnd rest = true → numGet (tok ++ rest) = .value v rest

/-- The text of a list of tokens, each written after its run of white space and
listed with its value, followed by `tail`. -/
def tokensText : List (List Char × List Char × T) → List Char → List Char
  | [], tail => tail
  | (w, t, _) :: more, tail => w ++ (t ++ tokensText more tail)

/-- A text of white-space separated numeric tokens: every run is white space, every
token is numeric with the listed value, and every token ends where the text is
exhausted or white space follows. -/
def TokenInput (numGet : List Char → NumResult T) :
    List (List Char × List Char × T) → List Char → Prop
  | [], _ => True
  | (w, t, v) :: more, tail =>
    (∀ c ∈ w, isspace c = true) ∧ NumericToken numGet t v ∧
      tokenEnd (tokensText more tail) = true ∧ TokenInput numGet more tail

/-- The loop `for (it = b; it != e; ++it) visit(*it)` of a range-based `for` over
the storage `c`, pointers being offsets into `c`: the elements visited, in order.
`fuel` bounds the number of iterations. -/
def rangeFor (c : List T) (e : Nat) : Nat → Nat → List T
  | 0, _ => []
  | fuel + 1, it => if it ≠ e then c.getD it 0 :: rangeFor c e fuel (it + 1) else []

end Model

/-- Two's complement value of `x` in a signed integer type of `w` bits: what
arithmetic in that type yields where the exact result `x` is not representable. -/
def wrapInt (w : Nat) (x : Int) : Int := (x + 2 ^ (w - 1)) % 2 ^ w - 2 ^ (w - 1)

/-- The comparison loop of `operator==` instantiated at a signed integer type whose
arithmetic is done in `w` bits: the difference and `std::abs` are computed in the
integer type, then converted to `double` for the comparison with the tolerance. -/
def eqLoopInt (w : Nat) (l r : List Int) (n : Nat) : Bool :=
  forLoop (fun i retval =>
    if ((wrapInt w |wrapInt w (l.getD i 0 - r.getD i 0)| : Int) : ℚ)
        > GPV_POINTVECTOR_EVAL_TOL then false
    else retval) n true

/-- The data members of `Vector<T, S>`: `std::size_t dim; T comp[S];`. -/
structure Vector (T : Type) (S : Nat) where
  dim : Nat
  comp : List T
  deriving DecidableEq, Repr

/-- The data members of `Point<T, S>`: `std::size_t dim; T coord[S];`. -/
structure Point (T : Type) (S : Nat) where
  dim : Nat
  coord : List T
  deriving DecidableEq, Repr

namespace Vector

variable {T : Type} [LinearOrderedField T] {S : Nat}

/-- An object of type `Vector<T, S>` as every constructor leaves it: `dim` is `S`
and the storage has `S` slots. -/
def Valid (v : Vector T S) : Prop := v.dim = S ∧ v.comp.length = S

instance (v : Vector T S) : Decidable v.Valid := by
  unfold Valid; infer_instance

/-- Default constructor `Vector() : comp{0}, dim(S)`. -/
def ctor_default : Vector T S := { dim := S, comp := arrayInit S 0 }

/-- Aggregate constructor `Vector(std::initializer_list<value_type> values)`. -/
def ctor_initializer_list (values : List T) : Except Error (Vector T S) :=
  let this : Vector T S := ctor_default
  if this.dim ≠ values.length then
    .error (.range_error "Size of the array is not equal to the dimension of the object")
  else
    .ok { this with comp := stdCopy values values.length this.comp }

/-- Copy constructor `Vector(const Vector &rhs)`; `mem` is the content of the
storage `comp` before the copy (the member has no initialiser). -/
def ctor_copy (mem : List T) (rhs : Vector T S) : Vector T S :=
  { dim := rhs.dim, comp := stdCopy rhs.comp rhs.dim mem }

/-- Compound assignment `operator+=(const Vector &rhs)`. -/
def operator_add_assign (this rhs : Vector T S) : Vector T S :=
  { this with
    comp := forLoop (fun i c => c.set i (c.getD i 0 + rhs.comp.getD i 0)) this.dim this.comp }

/-- Compound assignment `operator-=(const Vector &rhs)`. -/
def operator_sub_assign (this rhs : Vector T S) : Vector T S :=
  { this with
    comp := forLoop (fun i c => c.set i (c.getD i 0 - rhs.comp.getD i 0)) this.dim this.comp }

/-- Compound assignment `operator*=(const T &rhs)`. -/
def operator_mul_assign (this : Vector T S) (rhs : T) : Vector T S :=
  { this with comp := forLoop (fun i c => c.set i (c.getD i 0 * rhs)) this.dim this.comp }

/-- Compound assignment `operator/=(const T &rhs)`. -/
def operator_div_assign (this : Vector T S) (rhs : T) : Vector T S :=
  { this with comp := forLoop (fun i c => c.set i (c.getD i 0 / rhs)) this.dim this.comp }

/-- Friend `operator+(Vector lhs, const Vector &rhs)`; `lhs` is the by-value parameter. -/
def operator_add (lhs rhs : Vector T S) : Vector T S := operator_add_assign lhs rhs

/-- Friend `operator-(Vector lhs, const Vector &rhs)`; `lhs` is the by-value parameter. -/
def operator_sub (lhs rhs : Vector T S) : Vector T S := operator_sub_assign lhs rhs

/-- Friend `operator*(Vector lhs, const Vector &rhs)`, the dot product. -/
def operator_mul (lhs rhs : Vector T S) : T :=
  forLoop (fun i sum => sum + lhs.comp.getD i 0 * rhs.comp.getD i 0) lhs.dim 0

/-- Friend `operator*(Vector lhs, const T &rhs)`; `lhs` is the by-value parameter. -/
def operator_mul_scalar (lhs : Vector T S) (rhs : T) : Vector T S := operator_mul_assign lhs rhs

/-- Friend `operator/(Vector lhs, const T &rhs)`; `lhs` is the by-value parameter. -/
def operator_div_scalar (lhs : Vector T S) (rhs : T) : Vector T S := operator_div_assign lhs rhs

/-- Array subscript `operator[]`, read through the returned reference. -/
def operator_index (v : Vector T S) (idx : Nat) : T := v.comp.getD idx 0

/-- Array subscript `operator[]`, assignment through the returned reference. -/
def assign_index (v : Vector T S) (idx : Nat) (x : T) : Vector T S :=
  { v with comp := v.comp.set idx x }

/-- Equality `operator==`. -/
def operator_eq (lhs rhs : Vector T S) : Bool :=
  forLoop (fun i retval =>
    if |lhs.comp.getD i 0 - rhs.comp.getD i 0| > GPV_POINTVECTOR_EVAL_TOL then false
    else retval) lhs.dim true

/-- Inequality `operator!=`. -/
def operator_ne (lhs rhs : Vector T S) : Bool := !(operator_eq lhs rhs)

/-- The loop of `operator>>` run for `n` iterations: iteration `i` is
`lhs >> rhs.comp[i]`. -/
def shrLoop (numGet : List Char → NumResult T) (n : Nat) (lhs : IStream)
    (rhs : Vector T S) : IStream × Vector T S :=
  forLoop (fun i st =>
    let r := extract numGet st.1 (st.2.comp.getD i 0)
    (r.1, { st.2 with comp := st.2.comp.set i r.2 })) n (lhs, rhs)

/-- Friend `operator>>(std::istream &lhs, Vector &rhs)`: the stream and the vector
after the read. -/
def operator_shr (numGet : List Char → NumResult T) (lhs : IStream)
    (rhs : Vector T S) : IStream × Vector T S :=
  shrLoop numGet rhs.dim lhs rhs

/-- Member `cross`: the returned vector or the thrown exception, paired with the
receiver after the call (the member is not `const`; `rhs` is a `const` reference). -/
def cross (this rhs : Vector T S) : Except Error (Vector T S) × Vector T S :=
  let retval : Vector T S := ctor_default
  if this.dim ≠ 3 ∨ rhs.dim ≠ 3 then
    (.error (.runtime_error "Cross product can only work with certain dimensions"), this)
  else
    let retval := retval.assign_index 0
      ((this.comp.getD 1 0 * rhs.comp.getD 2 0) - (this.comp.getD 2 0 * rhs.comp.getD 1 0))
    let retval := retval.assign_index 1
      ((this.comp.getD 2 0 * rhs.comp.getD 0 0) - (this.comp.getD 0 0 * rhs.comp.getD 2 0))
    let retval := retval.assign_index 2
      ((this.comp.getD 0 0 * rhs.comp.getD 1 0) - (this.comp.getD 1 0 * rhs.comp.getD 0 0))
    (.ok retval, this)

/-- Constructor `Vector(T *values)`; `values` is the memory from the pointer on. -/
def ctor_pointer (values : List T) : Vector T S :=
  let this : Vector T S := ctor_default
  { this with comp := forLoop (fun i c => c.set i (values.getD i 0)) this.dim this.comp }

/-- Constructor `Vector(T value)`. -/
def ctor_value (value : T) : Vector T S :=
  let this : Vector T S := ctor_default
  { this with comp := forLoop (fun i c => c.set i value) this.dim this.comp }

/-- Copy assignment `operator=(const Vector &rhs)`: the receiver after it. -/
def operator_assign (this rhs : Vector T S) : Vector T S :=
  { dim := rhs.dim, comp := stdCopy rhs.comp rhs.dim this.comp }

/-- Move assignment `operator=(Vector &&rhs)` between two distinct objects: the
receiver and the source after it. -/
def operator_assign_move (this rhs : Vector T S) : Vector T S × Vector T S :=
  ({ dim := rhs.dim, comp := stdCopy rhs.comp rhs.dim this.comp },
    { rhs with comp := forLoop (fun i c => c.set i 0) rhs.dim rhs.comp })

/-- Friend `operator<<(std::ostream &lhs, Vector &rhs)`: the text of the stream
after the call, with `lhs` the text written before it and `render` the standard
rendering `os << x` of a `T`. -/
def operator_shl (render : T → String) (lhs : String) (rhs : Vector T S) : String :=
  forLoop (fun i out =>
    (out ++ render (rhs.comp.getD i 0)) ++ (if i ≠ rhs.dim - 1 then ", " else ")"))
    rhs.dim (lhs ++ "(")

/-- Constructor `Vector(T *values)` with every read `values[i]` checked against the
buffer: `none` when an index outside the buffer is read. -/
def ctor_pointer_checked (values : List T) : Option (Vector T S) :=
  let this : Vector T S := ctor_default
  (forLoop (fun i c => c.bind (fun c => (values.get? i).map (fun x => c.set i x)))
    this.dim (some this.comp)).map (fun c => { this with comp := c })

/-- Member `begin()`, the pointer `&comp[0]` as an offset into the storage. -/
def begin (_v : Vector T S) : Nat := 0

/-- Member `end()`, the pointer `&comp[dim]` as an offset into the storage. -/
def end_ (v : Vector T S) : Nat := v.dim

/-- Member `data()`, the pointer `&comp[0]` as an offset into the storage. -/
def data (_v : Vector T S) : Nat := 0

/-- Dereference `*ptr` of a pointer into the storage of `v`. -/
def deref (v : Vector T S) (ptr : Nat) : T := v.comp.getD ptr 0

/-- The traversal `for (auto x : v)`, from `begin()` to `end()`. -/
def traverse (fuel : Nat) (v : Vector T S) : List T :=
  rangeFor v.comp v.end_ fuel v.begin

end Vector

namespace Point

variable {T : Type} [LinearOrderedField T] {S : Nat}

/-- An object of type `Point<T, S>` as every constructor leaves it: `dim` is `S`
and the storage has `S` slots. -/
def Valid (v : Point T S) : Prop := v.dim = S ∧ v.coord.length = S

instance (v : Point T S) : Decidable v.Valid := by
  unfold Valid; infer_instance

/-- Default constructor `Point() : coord{0}, dim(S)`. -/
def ctor_default : Point T S := { dim := S, coord := arrayInit S 0 }

/-- Aggregate constructor `Point(std::initializer_list<value_type> values)`. -/
def ctor_initializer_list (values : List T) : Except Error (Point T S) :=
  let this : Point T S := ctor_default
  if this.dim ≠ values.length then
    .error (.range_error "Size of the array is not equal to the dimension of the object")
  else
    .ok { this with coord := stdCopy values values.length this.coord }

/-- Copy constructor `Point(const Point &rhs)`; `mem` is the content of the
storage `coord` before the copy (the member has no initialiser). -/
def ctor_copy (mem : List T) (rhs : Point T S) : Point T S :=
  { dim := rhs.dim, coord := stdCopy rhs.coord rhs.dim mem }

/-- Compound assignment `operator+=(const Point &rhs)`. -/
def operator_add_assign (this rhs : Point T S) : Point T S :=
  { this with
    coord := forLoop (fun i c => c.set i (c.getD i 0 + rhs.coord.getD i 0)) this.dim this.coord }

/-- Compound assignment `operator-=(const Point &rhs)`. -/
def operator_sub_assign (this rhs : Point T S) : Point T S :=
  { this with
    coord := forLoop (fun i c => c.set i (c.getD i 0 - rhs.coord.getD i 0)) this.dim this.coord }

/-- Compound assignment `operator+=(const T &rhs)`. -/
def operator_add_assign_scalar (this : Point T S) (rhs : T) : Point T S :=
  { this with coord := forLoop (fun i c => c.set i (c.getD i 0 + rhs)) this.dim this.coord }

/-- Compound assignment `operator-=(const T &rhs)`. -/
def operator_sub_assign_scalar (this : Point T S) (rhs : T) : Point T S :=
  { this with coord := forLoop (fun i c => c.set i (c.getD i 0 - rhs)) this.dim this.coord }

/-- Compound assignment `operator*=(const T &rhs)`. -/
def operator_mul_assign (this : Point T S) (rhs : T) : Point T S :=
  { this with coord := forLoop (fun i c => c.set i (c.getD i 0 * rhs)) this.dim this.coord }

/-- Compound assignment `operator/=(const T &rhs)`. -/
def operator_div_assign (this : Point T S) (rhs : T) : Point T S :=
  { this with coord := forLoop (fun i c => c.set i (c.getD i 0 / rhs)) this.dim this.coord }

/-- Friend `operator+(Point lhs, const Point &rhs)`; `lhs` is the by-value parameter. -/
def operator_add (lhs rhs : Point T S) : Point T S := operator_add_assign lhs rhs

/-- Friend `operator-(Point lhs, const Point &rhs)`; `lhs` is the by-value parameter. -/
def operator_sub (lhs rhs : Point T S) : Point T S := operator_sub_assign lhs rhs

/-- Friend `operator+(Point lhs, const T &rhs)`; `lhs` is the by-value parameter. -/
def operator_add_scalar (lhs : Point T S) (rhs : T) : Point T S :=
  operator_add_assign_scalar lhs rhs

/-- Friend `operator-(Point lhs, const T &rhs)`; `lhs` is the by-value parameter. -/
def operator_sub_scalar (lhs : Point T S) (rhs : T) : Point T S :=
  operator_sub_assign_scalar lhs rhs

/-- Friend `operator*(Point lhs, const T &rhs)`; `lhs` is the by-value parameter. -/
def operator_mul_scalar (lhs : Point T S) (rhs : T) : Point T S := operator_mul_assign lhs rhs

/-- Friend `operator/(Point lhs, const T &rhs)`; `lhs` is the by-value parameter. -/
def operator_div_scalar (lhs : Point T S) (rhs : T) : Point T S := operator_div_assign lhs rhs

/-- Array subscript `operator[]`, read through the returned reference. -/
def operator_index (v : Point T S) (idx : Nat) : T := v.coord.getD idx 0

/-- Array subscript `operator[]`, assignment through the returned reference. -/
def assign_index (v : Point T S) (idx : Nat) (x : T) : Point T S :=
  { v with coord := v.coord.set idx x }

/-- Equality `operator==`. -/
def operator_eq (lhs rhs : Point T S) : Bool :=
  forLoop (fun i retval =>
    if |lhs.coord.getD i 0 - rhs.coord.getD i 0| > GPV_POINTVECTOR_EVAL_TOL then false
    else retval) lhs.dim true

/-- Inequality `operator!=`. -/
def operator_ne (lhs rhs : Point T S) : Bool := !(operator_eq lhs rhs)

/-- The loop of `operator>>` run for `n` iterations: iteration `i` is
`lhs >> rhs.coord[i]`. -/
def shrLoop (numGet : List Char → NumResult T) (n : Nat) (lhs : IStream)
    (rhs : Point T S) : IStream × Point T S :=
  forLoop (fun i st =>
    let r := extract numGet st.1 (st.2.coord.getD i 0)
    (r.1, { st.2 with coord := st.2.coord.set i r.2 })) n (lhs, rhs)

/-- Friend `operator>>(std::istream &lhs, Point &rhs)`: the stream and the point
after the read. -/
def operator_shr (numGet : List Char → NumResult T) (lhs : IStream)
    (rhs : Point T S) : IStream × Point T S :=
  shrLoop numGet rhs.dim lhs rhs

/-- Constructor `Point(T *values)`; `values` is the memory from the pointer on. -/
def ctor_pointer (values : List T) : Point T S :=
  let this : Point T S := ctor_default
  { this with coord := forLoop (fun i c => c.set i (values.getD i 0)) this.dim this.coord }

/-- Constructor `Point(T value)`. -/
def ctor_value (value : T) : Point T S :=
  let this : Point T S := ctor_default
  { this with coord := forLoop (fun i c => c.set i value) this.dim this.coord }

/-- Copy assignment `operator=(const Point &rhs)`: the receiver after it. -/
def operator_assign (this rhs : Point T S) : Point T S :=
  { dim := rhs.dim, coord := stdCopy rhs.coord rhs.dim this.coord }

/-- Move assignment `operator=(Point &&rhs)` between two distinct objects: the
receiver and the source after it. -/
def operator_assign_move (this rhs : Point T S) : Point T S × Point T S :=
  ({ dim := rhs.dim, coord := stdCopy rhs.coord rhs.dim this.coord },
    { rhs with coord := forLoop (fun i c => c.set i 0) rhs.dim rhs.coord })

/-- Friend `operator<<(std::ostream &lhs, Point &rhs)`: the text of the stream
after the call, with `lhs` the text written before it and `render` the standard
rendering `os << x` of a `T`. -/
def operator_shl (render : T → String) (lhs : String) (rhs : Point T S) : String :=
  forLoop (fun i out =>
    (out ++ render (rhs.coord.getD i 0)) ++ (if i ≠ rhs.dim - 1 then ", " else ")"))
    rhs.dim (lhs ++ "(")

/-- Constructor `Point(T *values)` with every read `values[i]` checked against the
buffer: `none` when an index outside the buffer is read. -/
def ctor_pointer_checked (values : List T) : Option (Point T S) :=
  let this : Point T S := ctor_default
  (forLoop (fun i c => c.bind (fun c => (values.get? i).map (fun x => c.set i x)))
    this.dim (some this.coord)).map (fun c => { this with coord := c })

/-- Member `begin()`, the pointer `&coord[0]` as an offset into the storage. -/
def begin (_v : Point T S) : Nat := 0

/-- Member `end()`, the pointer `&coord[dim]` as an offset into the storage. -/
def end_ (v : Point T S) : Nat := v.dim

/-- Member `data()`, the pointer `&coord[0]` as an offset into the storage. -/
def data (_v : Point T S) : Nat := 0

/-- Dereference `*ptr` of a pointer into the storage of `v`. -/
def deref (v : Point T S) (ptr : Nat) : T := v.coord.getD ptr 0

/-- The traversal `for (auto x : v)`, from `begin()` to `end()`. -/
def traverse (fuel : Nat) (v : Point T S) : List T :=
  rangeFor v.coord v.end_ fuel v.begin

end Point

/-- `operator==` of `Vector<T, S>` for a signed integer `T` computed in `w` bits. -/
def Vector.operator_eq_int {S : Nat} (w : Nat) (lhs rhs : Vector Int S) : Bool :=
  eqLoopInt w lhs.comp rhs.comp lhs.dim

/-- `operator==` of `Point<T, S>` for a signed integer `T` computed in `w` bits. -/
def Point.operator_eq_int {S : Nat} (w : Nat) (lhs rhs : Point Int S) : Bool :=
  eqLoopInt w lhs.coord rhs.coord lhs.dim

/-- The `Point` with the data members of a `Vector`: the same `dim` and the same
storage. -/
def Vector.asPoint {T : Type} {S : Nat} (v : Vector T S) : Point T S :=
  { dim := v.dim, coord := v.comp }

/-! ## Loops over the storage -/

section Loops

variable {T : Type} [LinearOrderedField T]

theorem tol_eq : (GPV_POINTVECTOR_EVAL_TOL : T) = 1 / 10000 := by
  unfold GPV_POINTVECTOR_EVAL_TOL; norm_num

theorem getD_set_same (c : List T) (i : Nat) (v : T) (h : i < c.length) :
    (c.set i v).getD i 0 = v := by
  simp [List.getD_eq_getElem?_getD, List.getElem?_set, h]

theorem getD_set_other (c : List T) (i j : Nat) (v : T) (h : i ≠ j) :
    (c.set i v).getD j 0 = c.getD j 0 := by
  simp [List.getD_eq_getElem?_getD, List.getElem?_set, h]

/-- Two lists of one length with the same slot values are the same list. -/
theorem list_eq_of_getD (c d : List T) (hl : c.length = d.length)
    (h : ∀ j, j < c.length → c.getD j 0 = d.getD j 0) : c = d := by
  apply List.ext_getElem hl
  intro j h1 h2
  have := h j h1
  simpa [List.getD_eq_getElem?_getD, List.getElem?_eq_getElem h1,
    List.getElem?_eq_getElem h2] using this

/-- A loop that writes slot `i` at iteration `i` keeps the number of slots. -/
theorem forLoop_set_length {α : Type} (g : Nat → List α → α) (n : Nat) (c : List α) :
    (forLoop (fun i d => d.set i (g i d)) n c).length = c.length := by
  induction n with
  | zero => rfl
  | succ n ih => simp [forLoop, ih]

/-- A loop that updates slot `i` from its own value at iteration `i`: slot `j` after
`n` iterations. -/
theorem forLoop_set_getD (f : Nat → T → T) (n : Nat) (c : List T) (j : Nat)
    (hj : j < c.length) :
    (forLoop (fun i d => d.set i (f i (d.getD i 0))) n c).getD j 0 =
      if j < n then f j (c.getD j 0) else c.getD j 0 := by
  induction n with
  | zero => simp [forLoop]
  | succ n ih =>
    have hlen := forLoop_set_length (fun i d => f i (d.getD i 0)) n c
    show ((forLoop (fun i d => d.set i (f i (d.getD i 0))) n c).set n _).getD j 0 = _
    by_cases hjn : n = j
    · subst hjn
      rw [getD_set_same _ _ _ (by rw [hlen]; exact hj), ih]
      simp
    · rw [getD_set_other _ _ _ _ hjn, ih]
      by_cases h1 : j < n
      · simp [h1, Nat.lt_succ_of_lt h1]
      · have h2 : ¬ j < n + 1 := by omega
        simp [h1, h2]

/-- The comparison loop of `operator==` answers `true` exactly when no visited slot
pair differs by more than the tolerance. -/
theorem eqLoop_iff (l r : List T) (n : Nat) :
    forLoop (fun i retval =>
      if |l.getD i 0 - r.getD i 0| > GPV_POINTVECTOR_EVAL_TOL then false else retval) n true
        = true ↔ ∀ i, i < n → |l.getD i 0 - r.getD i 0| ≤ 1 / 10000 := by
  induction n with
  | zero => simp [forLoop]
  | succ n ih =>
    show (if |l.getD n 0 - r.getD n 0| > GPV_POINTVECTOR_EVAL_TOL then false else _) = true ↔ _
    by_cases h : |l.getD n 0 - r.getD n 0| > GPV_POINTVECTOR_EVAL_TOL
    · rw [if_pos h]
      constructor
      · intro hf; exact absurd hf (by simp)
      · intro hall
        have := hall n (Nat.lt_succ_self n)
        rw [tol_eq] at h
        exact absurd this (not_le.mpr h)
    · rw [if_neg h, ih]
      rw [tol_eq] at h
      constructor
      · intro hall i hi
        rcases Nat.lt_succ_iff_lt_or_eq.mp hi with h1 | h1
        · exact hall i h1
        · subst h1; exact not_lt.mp h
      · intro hall i hi
        exact hall i (Nat.lt_succ_of_lt hi)

/-- The accumulation loop of the dot product is the sum over the visited indices. -/
theorem dotLoop_eq_sum (l r : List T) (n : Nat) :
    forLoop (fun i sum => sum + l.getD i 0 * r.getD i 0) n 0 =
      ∑ i in Finset.range n, l.getD i 0 * r.getD i 0 := by
  induction n with
  | zero => simp [forLoop]
  | succ n ih =>
    show forLoop (fun i sum => sum + l.getD i 0 * r.getD i 0) n 0 + _ = _
    rw [ih, Finset.sum_range_succ]

/-- Copying all of `src` over storage of the same size gives `src`. -/
theorem stdCopy_all (src dst : List T) (h : dst.length = src.length) :
    stdCopy src src.length dst = src := by
  unfold stdCopy
  have hlen := forLoop_set_length (fun i _ => src.getD i 0) src.length dst
  apply list_eq_of_getD _ _ (by rw [hlen, h])
  intro j hj
  rw [hlen] at hj
  have := forLoop_set_getD (fun i _ => src.getD i 0) src.length dst j hj
  rw [this, if_pos (by omega)]

theorem arrayInit_length (S : Nat) (v : T) : (arrayInit S v).length = S := by
  simp [arrayInit]

/-- The loop visits the indices `0, 1, ..., n-1` in this order. -/
theorem forLoop_eq_foldl {σ : Type} (body : Nat → σ → σ) (n : Nat) (s : σ) :
    forLoop body n s = (List.range n).foldl (fun acc i => body i acc) s := by
  induction n with
  | zero => rfl
  | succ n ih => simp [forLoop, ih, List.range_succ, List.foldl_append]

end Loops

/-! ## Cross product and dot product -/

section Claims

variable {T : Type} [LinearOrderedField T] {S : Nat}

/-- C1: for 3-dimensional vectors `a` and `b`, `a.cross(b)` succeeds and returns the
vector with components `a[1]*b[2] - a[2]*b[1]`, `a[2]*b[0] - a[0]*b[2]`,
`a[0]*b[1] - a[1]*b[0]`; `cross((1,2,3),(4,5,6))` is `(-3,6,-3)`, and
`cross((-7, 3.2, 1.47),(3, -1.69, 0))` compares equal to `(2.4843, 4.41, 2.23)`
under `operator==`. -/
theorem C1_cross_formula (a b : Vector T 3) (ha : a.Valid) (hb : b.Valid) :
    (a.cross b).1 = .ok
        { dim := 3,
          comp := [a.operator_index 1 * b.operator_index 2
                     - a.operator_index 2 * b.operator_index 1,
                   a.operator_index 2 * b.operator_index 0
                     - a.operator_index 0 * b.operator_index 2,
                   a.operator_index 0 * b.operator_index 1
                     - a.operator_index 1 * b.operator_index 0] }
    ∧ (Vector.cross (⟨3, [1, 2, 3]⟩ : Vector ℚ 3) ⟨3, [4, 5, 6]⟩).1 = .ok ⟨3, [-3, 6, -3]⟩
    ∧ ∃ r : Vector ℚ 3,
        (Vector.cross (⟨3, [-7, 3.2, 1.47]⟩ : Vector ℚ 3) ⟨3, [3, -1.69, 0]⟩).1 = .ok r
          ∧ Vector.operator_eq r ⟨3, [2.4843, 4.41, 2.23]⟩ = true := by
  have gen : ∀ {K : Type} [LinearOrderedField K] (x y : Vector K 3),
      x.Valid → y.Valid → (x.cross y).1 = .ok
        { dim := 3,
          comp := [x.operator_index 1 * y.operator_index 2
                     - x.operator_index 2 * y.operator_index 1,
                   x.operator_index 2 * y.operator_index 0
                     - x.operator_index 0 * y.operator_index 2,
                   x.operator_index 0 * y.operator_index 1
                     - x.operator_index 1 * y.operator_index 0] } := by
    intro K _ x y hx hy
    simp [Vector.cross, hx.1, hy.1, Vector.ctor_default, arrayInit, Vector.assign_index,
      Vector.operator_index, List.replicate]
  refine ⟨gen a b ha hb, ?_, ?_⟩
  · rw [gen _ _ (by decide) (by decide)]
    norm_num [Vector.operator_index]
  · refine ⟨_, gen _ _ (by decide) (by decide), ?_⟩
    unfold Vector.operator_eq
    rw [eqLoop_iff]
    intro i hi
    have hi3 : i < 3 := hi
    interval_cases i <;> norm_num [Vector.operator_index]

theorem C1_cross_formula_witness :
    (⟨3, [2, 0, 1]⟩ : Vector ℚ 3).Valid ∧ (⟨3, [1, 5, 0]⟩ : Vector ℚ 3).Valid ∧
      (Vector.cross (⟨3, [2, 0, 1]⟩ : Vector ℚ 3) ⟨3, [1, 5, 0]⟩).1 = .ok
        { dim := 3,
          comp := [Vector.operator_index (⟨3, [2, 0, 1]⟩ : Vector ℚ 3) 1
                     * Vector.operator_index (⟨3, [1, 5, 0]⟩ : Vector ℚ 3) 2
                     - Vector.operator_index (⟨3, [2, 0, 1]⟩ : Vector ℚ 3) 2
                     * Vector.operator_index (⟨3, [1, 5, 0]⟩ : Vector ℚ 3) 1,
                   Vector.operator_index (⟨3, [2, 0, 1]⟩ : Vector ℚ 3) 2
                     * Vector.operator_index (⟨3, [1, 5, 0]⟩ : Vector ℚ 3) 0
                     - Vector.operator_index (⟨3, [2, 0, 1]⟩ : Vector ℚ 3) 0
                     * Vector.operator_index (⟨3, [1, 5, 0]⟩ : Vector ℚ 3) 2,
                   Vector.operator_index (⟨3, [2, 0, 1]⟩ : Vector ℚ 3) 0
                     * Vector.operator_index (⟨3, [1, 5, 0]⟩ : Vector ℚ 3) 1
                     - Vector.operator_index (⟨3, [2, 0, 1]⟩ : Vector ℚ 3) 1
                     * Vector.operator_index (⟨3, [1, 5, 0]⟩ : Vector ℚ 3) 0] } :=
  ⟨by decide, by decide, (C1_cross_formula _ _ (by decide) (by decide)).1⟩

/-- C2: on valid `S`-dimensional vectors, `cross` throws the `runtime_error`
"Cross product can only work with certain dimensions" and returns no vector when
`S` is not 3, returns a vector when `S` is 3, and so throws exactly when `S ≠ 3`. -/
theorem C2_cross_fails_iff_not_3d (a b : Vector T S) (ha : a.Valid) (hb : b.Valid) :
    (S ≠ 3 → (a.cross b).1 =
        .error (.runtime_error "Cross product can only work with certain dimensions"))
    ∧ (S = 3 → ∃ r, (a.cross b).1 = .ok r)
    ∧ ((∃ e, (a.cross b).1 = .error e) ↔ S ≠ 3) := by
  have hne : S ≠ 3 → (a.cross b).1 =
      .error (.runtime_error "Cross product can only work with certain dimensions") := by
    intro h
    have h1 : a.dim ≠ 3 ∨ b.dim ≠ 3 := Or.inl (by rw [ha.1]; exact h)
    simp only [Vector.cross, if_pos h1]
  have heq : S = 3 → ∃ r, (a.cross b).1 = .ok r := by
    intro h
    have h1 : ¬ (a.dim ≠ 3 ∨ b.dim ≠ 3) := by
      rw [ha.1, hb.1]; simp [h]
    simp only [Vector.cross, if_neg h1]
    exact ⟨_, rfl⟩
  refine ⟨hne, heq, ?_, ?_⟩
  · rintro ⟨e, he⟩ h3
    obtain ⟨r, hr⟩ := heq h3
    rw [hr] at he
    cases he
  · intro h
    exact ⟨_, hne h⟩

theorem C2_cross_fails_iff_not_3d_witness :
    (⟨2, [1, 2]⟩ : Vector ℚ 2).Valid ∧ (⟨2, [3, 4]⟩ : Vector ℚ 2).Valid ∧
      (Vector.cross (⟨2, [1, 2]⟩ : Vector ℚ 2) ⟨2, [3, 4]⟩).1 =
        .error (.runtime_error "Cross product can only work with certain dimensions") :=
  ⟨by decide, by decide,
    (C2_cross_fails_iff_not_3d _ _ (by decide) (by decide)).1 (by decide)⟩

/-- C3: the dot product `a * b` of valid `S`-dimensional vectors is a total function
whose value is the sum of `a[i] * b[i]` over `i` in `[0, S)`, accumulated from 0 in
index order; `(1,2,3) * (1,2,3)` is 14. -/
theorem C3_dot_product_sum (a b : Vector T S) (ha : a.Valid) (_hb : b.Valid) :
    Vector.operator_mul a b =
        (List.range S).foldl
          (fun acc i => acc + a.operator_index i * b.operator_index i) 0
    ∧ Vector.operator_mul a b =
        ∑ i in Finset.range S, a.operator_index i * b.operator_index i
    ∧ Vector.operator_mul (⟨3, [1, 2, 3]⟩ : Vector ℚ 3) ⟨3, [1, 2, 3]⟩ = 14 := by
  refine ⟨?_, ?_, ?_⟩
  · unfold Vector.operator_mul Vector.operator_index
    rw [ha.1, forLoop_eq_foldl]
  · unfold Vector.operator_mul Vector.operator_index
    rw [ha.1, dotLoop_eq_sum]
  · unfold Vector.operator_mul
    rw [dotLoop_eq_sum]
    norm_num [Finset.sum_range_succ]

theorem C3_dot_product_sum_witness :
    (⟨2, [3, 4]⟩ : Vector ℚ 2).Valid ∧ (⟨2, [5, 6]⟩ : Vector ℚ 2).Valid ∧
      Vector.operator_mul (⟨2, [3, 4]⟩ : Vector ℚ 2) ⟨2, [5, 6]⟩ =
        ∑ i in Finset.range 2,
          Vector.operator_index (⟨2, [3, 4]⟩ : Vector ℚ 2) i
            * Vector.operator_index (⟨2, [5, 6]⟩ : Vector ℚ 2) i :=
  ⟨by decide, by decide, (C3_dot_product_sum _ _ (by decide) (by decide)).2.1⟩

/-! ## Tolerance equality -/

theorem vector_operator_eq_iff (a b : Vector T S) :
    Vector.operator_eq a b = true ↔
      ∀ i, i < a.dim → |a.operator_index i - b.operator_index i| ≤ 1 / 10000 := by
  unfold Vector.operator_eq Vector.operator_index
  exact eqLoop_iff a.comp b.comp a.dim

theorem point_operator_eq_iff (a b : Point T S) :
    Point.operator_eq a b = true ↔
      ∀ i, i < a.dim → |a.operator_index i - b.operator_index i| ≤ 1 / 10000 := by
  unfold Point.operator_eq Point.operator_index
  exact eqLoop_iff a.coord b.coord a.dim

/-- C4: for `Vector` (`a`, `b`) and for `Point` (`p`, `q`), `==` is true exactly when
every component pair differs by at most 1/10000 in absolute value; a larger
difference in some component makes `==` false, a difference of exactly 1/10000
counts as equal, and `!=` is the negation of `==`. -/
theorem C4_eq_iff_within_tolerance (a b : Vector T S) (p q : Point T S)
    (ha : a.Valid) (_hb : b.Valid) (hp : p.Valid) (_hq : q.Valid) :
    (Vector.operator_eq a b = true ↔
        ∀ i, i < S → |a.operator_index i - b.operator_index i| ≤ 1 / 10000)
    ∧ ((∃ i, i < S ∧ |a.operator_index i - b.operator_index i| > 1 / 10000) →
        Vector.operator_eq a b = false)
    ∧ Vector.operator_ne a b = !(Vector.operator_eq a b)
    ∧ (Point.operator_eq p q = true ↔
        ∀ i, i < S → |p.operator_index i - q.operator_index i| ≤ 1 / 10000)
    ∧ ((∃ i, i < S ∧ |p.operator_index i - q.operator_index i| > 1 / 10000) →
        Point.operator_eq p q = false)
    ∧ Point.operator_ne p q = !(Point.operator_eq p q)
    ∧ Vector.operator_eq (⟨2, [0, 5]⟩ : Vector ℚ 2) ⟨2, [1 / 10000, 5 - 1 / 10000]⟩ = true
    ∧ Point.operator_eq (⟨2, [0, 5]⟩ : Point ℚ 2) ⟨2, [1 / 10000, 5 - 1 / 10000]⟩ = true := by
  have hv := vector_operator_eq_iff a b
  have hq := point_operator_eq_iff p q
  rw [ha.1] at hv
  rw [hp.1] at hq
  refine ⟨hv, ?_, rfl, hq, ?_, rfl, ?_, ?_⟩
  · rintro ⟨i, hi, hgt⟩
    cases h : Vector.operator_eq a b
    · rfl
    · exact absurd (hv.mp h i hi) (not_le.mpr hgt)
  · rintro ⟨i, hi, hgt⟩
    cases h : Point.operator_eq p q
    · rfl
    · exact absurd (hq.mp h i hi) (not_le.mpr hgt)
  · rw [vector_operator_eq_iff]
    intro i hi
    have hi2 : i < 2 := hi
    interval_cases i <;> norm_num [Vector.operator_index, abs_le]
  · rw [point_operator_eq_iff]
    intro i hi
    have hi2 : i < 2 := hi
    interval_cases i <;> norm_num [Point.operator_index, abs_le]

theorem C4_eq_iff_within_tolerance_witness :
    (⟨1, [1]⟩ : Vector ℚ 1).Valid ∧ (⟨1, [2]⟩ : Vector ℚ 1).Valid ∧
      (⟨1, [3]⟩ : Point ℚ 1).Valid ∧
      (Vector.operator_eq (⟨1, [1]⟩ : Vector ℚ 1) ⟨1, [2]⟩ = true ↔
        ∀ i, i < 1 → |Vector.operator_index (⟨1, [1]⟩ : Vector ℚ 1) i
          - Vector.operator_index (⟨1, [2]⟩ : Vector ℚ 1) i| ≤ 1 / 10000) ∧
      (Point.operator_eq (⟨1, [3]⟩ : Point ℚ 1) ⟨1, [3]⟩ = true ↔
        ∀ i, i < 1 → |Point.operator_index (⟨1, [3]⟩ : Point ℚ 1) i
          - Point.operator_index (⟨1, [3]⟩ : Point ℚ 1) i| ≤ 1 / 10000) :=
  ⟨by decide, by decide, by decide,
    (C4_eq_iff_within_tolerance (⟨1, [1]⟩ : Vector ℚ 1) ⟨1, [2]⟩ (⟨1, [3]⟩ : Point ℚ 1)
      ⟨1, [3]⟩ (by decide) (by decide) (by decide) (by decide)).1,
    (C4_eq_iff_within_tolerance (⟨1, [1]⟩ : Vector ℚ 1) ⟨1, [2]⟩ (⟨1, [3]⟩ : Point ℚ 1)
      ⟨1, [3]⟩ (by decide) (by decide) (by decide) (by decide)).2.2.2.1⟩

/-- C5: `operator==` of `Vector` and of `Point` is reflexive, and symmetric on
objects of one dimension. -/
theorem C5_eq_reflexive_symmetric (a b : Vector T S) (p q : Point T S)
    (ha : a.Valid) (hb : b.Valid) (hp : p.Valid) (hq : q.Valid) :
    Vector.operator_eq a a = true
    ∧ Vector.operator_eq a b = Vector.operator_eq b a
    ∧ (Vector.operator_eq a b = true ↔ Vector.operator_eq b a = true)
    ∧ Point.operator_eq p p = true
    ∧ Point.operator_eq p q = Point.operator_eq q p
    ∧ (Point.operator_eq p q = true ↔ Point.operator_eq q p = true) := by
  have hv : Vector.operator_eq a b = true ↔ Vector.operator_eq b a = true := by
    rw [vector_operator_eq_iff, vector_operator_eq_iff, ha.1, hb.1]
    constructor <;> intro h i hi <;> rw [abs_sub_comm] <;> exact h i hi
  have hpq : Point.operator_eq p q = true ↔ Point.operator_eq q p = true := by
    rw [point_operator_eq_iff, point_operator_eq_iff, hp.1, hq.1]
    constructor <;> intro h i hi <;> rw [abs_sub_comm] <;> exact h i hi
  refine ⟨?_, Bool.eq_iff_iff.mpr hv, hv, ?_, Bool.eq_iff_iff.mpr hpq, hpq⟩
  · rw [vector_operator_eq_iff]
    intro i _
    simp
  · rw [point_operator_eq_iff]
    intro i _
    simp

theorem C5_eq_reflexive_symmetric_witness :
    (⟨2, [1, 2]⟩ : Vector ℚ 2).Valid ∧ (⟨2, [1, 7]⟩ : Vector ℚ 2).Valid ∧
      (⟨2, [0, 4]⟩ : Point ℚ 2).Valid ∧ (⟨2, [0, 4]⟩ : Point ℚ 2).Valid ∧
      Vector.operator_eq (⟨2, [1, 2]⟩ : Vector ℚ 2) ⟨2, [1, 7]⟩ =
        Vector.operator_eq (⟨2, [1, 7]⟩ : Vector ℚ 2) ⟨2, [1, 2]⟩ ∧
      Point.operator_eq (⟨2, [0, 4]⟩ : Point ℚ 2) ⟨2, [0, 4]⟩ = true :=
  ⟨by decide, by decide, by decide, by decide,
    (C5_eq_reflexive_symmetric (⟨2, [1, 2]⟩ : Vector ℚ 2) ⟨2, [1, 7]⟩
      (⟨2, [0, 4]⟩ : Point ℚ 2) ⟨2, [0, 4]⟩ (by decide) (by decide) (by decide)
      (by decide)).2.1,
    (C5_eq_reflexive_symmetric (⟨2, [1, 2]⟩ : Vector ℚ 2) ⟨2, [1, 7]⟩
      (⟨2, [0, 4]⟩ : Point ℚ 2) ⟨2, [0, 4]⟩ (by decide) (by decide) (by decide)
      (by decide)).2.2.2.1⟩

/-! ## Initializer-list constructor -/

theorem vector_ctor_default_valid : (Vector.ctor_default : Vector T S).Valid :=
  ⟨rfl, arrayInit_length S 0⟩

theorem point_ctor_default_valid : (Point.ctor_default : Point T S).Valid :=
  ⟨rfl, arrayInit_length S 0⟩

/-- Copy construction of a valid `Vector`, whatever the storage held, reproduces it:
a by-value parameter or return value is the value itself. -/
theorem vector_ctor_copy_eq (mem : List T) (rhs : Vector T S) (h : rhs.Valid)
    (hm : mem.length = S) : Vector.ctor_copy mem rhs = rhs := by
  obtain ⟨d, c⟩ := rhs
  obtain ⟨hd, hc⟩ := h
  simp only at hd hc
  subst hc
  subst hd
  simp only [Vector.ctor_copy, stdCopy_all c mem hm]

/-- Copy construction of a valid `Point`, whatever the storage held, reproduces it:
a by-value parameter or return value is the value itself. -/
theorem point_ctor_copy_eq (mem : List T) (rhs : Point T S) (h : rhs.Valid)
    (hm : mem.length = S) : Point.ctor_copy mem rhs = rhs := by
  obtain ⟨d, c⟩ := rhs
  obtain ⟨hd, hc⟩ := h
  simp only at hd hc
  subst hc
  subst hd
  simp only [Point.ctor_copy, stdCopy_all c mem hm]

/-- The initializer-list constructor of `Vector` in closed form. -/
theorem vector_ctor_initializer_list_eq (values : List T) :
    (Vector.ctor_initializer_list values : Except Error (Vector T S)) =
      if values.length = S then .ok { dim := S, comp := values }
      else .error
        (.range_error "Size of the array is not equal to the dimension of the object") := by
  unfold Vector.ctor_initializer_list
  by_cases h : values.length = S
  · have h1 : ¬ (Vector.ctor_default : Vector T S).dim ≠ values.length := by
      simp [Vector.ctor_default, h]
    simp only [if_neg h1, if_pos h]
    rw [stdCopy_all values _ (by simp [Vector.ctor_default, arrayInit_length, h])]
    rfl
  · have h1 : (Vector.ctor_default : Vector T S).dim ≠ values.length := by
      simpa [Vector.ctor_default] using Ne.symm h
    simp only [if_pos h1, if_neg h]

/-- The initializer-list constructor of `Point` in closed form. -/
theorem point_ctor_initializer_list_eq (values : List T) :
    (Point.ctor_initializer_list values : Except Error (Point T S)) =
      if values.length = S then .ok { dim := S, coord := values }
      else .error
        (.range_error "Size of the array is not equal to the dimension of the object") := by
  unfold Point.ctor_initializer_list
  by_cases h : values.length = S
  · have h1 : ¬ (Point.ctor_default : Point T S).dim ≠ values.length := by
      simp [Point.ctor_default, h]
    simp only [if_neg h1, if_pos h]
    rw [stdCopy_all values _ (by simp [Point.ctor_default, arrayInit_length, h])]
    rfl
  · have h1 : (Point.ctor_default : Point T S).dim ≠ values.length := by
      simpa [Point.ctor_default] using Ne.symm h
    simp only [if_pos h1, if_neg h]

/-- C6: for `Vector` and for `Point`, every dimension `S` and every list of values,
the initializer-list constructor produces an instance exactly when the list has `S`
values, and otherwise throws the `range_error` "Size of the array is not equal to
the dimension of the object"; the lists `[]`, `[1, 2]` and `[1, 2, 3, 4]` are all
refused at dimension 3. -/
theorem C6_initializer_list_size_check (values : List T) :
    ((∃ v : Vector T S, Vector.ctor_initializer_list values = .ok v) ↔ values.length = S)
    ∧ ((Vector.ctor_initializer_list values : Except Error (Vector T S)) =
          .error
            (.range_error "Size of the array is not equal to the dimension of the object")
        ↔ values.length ≠ S)
    ∧ ((∃ p : Point T S, Point.ctor_initializer_list values = .ok p) ↔ values.length = S)
    ∧ ((Point.ctor_initializer_list values : Except Error (Point T S)) =
          .error
            (.range_error "Size of the array is not equal to the dimension of the object")
        ↔ values.length ≠ S)
    ∧ (∀ l : List ℚ, l = [] ∨ l = [1, 2] ∨ l = [1, 2, 3, 4] →
        (Vector.ctor_initializer_list l : Except Error (Vector ℚ 3)) =
          .error
            (.range_error "Size of the array is not equal to the dimension of the object")
        ∧ (Point.ctor_initializer_list l : Except Error (Point ℚ 3)) =
          .error
            (.range_error
              "Size of the array is not equal to the dimension of the object")) := by
  refine ⟨?_, ?_, ?_, ?_, ?_⟩
  · rw [vector_ctor_initializer_list_eq]
    by_cases h : values.length = S <;> simp [h]
  · rw [vector_ctor_initializer_list_eq]
    by_cases h : values.length = S <;> simp [h]
  · rw [point_ctor_initializer_list_eq]
    by_cases h : values.length = S <;> simp [h]
  · rw [point_ctor_initializer_list_eq]
    by_cases h : values.length = S <;> simp [h]
  · intro l hl
    rw [vector_ctor_initializer_list_eq, point_ctor_initializer_list_eq]
    rcases hl with h | h | h <;> subst h <;> simp

/-- C7: for `Vector` and for `Point`, the instance built from a list of exactly `S`
values is valid and its component `i` is the `i`-th value of the list, for every
`i` in `[0, S)`. -/
theorem C7_initializer_list_components (values : List T) (h : values.length = S) :
    (∃ v : Vector T S, Vector.ctor_initializer_list values = .ok v ∧ v.Valid ∧
        ∀ i (hi : i < values.length), v.operator_index i = values[i])
    ∧ (∃ p : Point T S, Point.ctor_initializer_list values = .ok p ∧ p.Valid ∧
        ∀ i (hi : i < values.length), p.operator_index i = values[i]) := by
  constructor
  · refine ⟨{ dim := S, comp := values }, ?_, ⟨rfl, h⟩, ?_⟩
    · rw [vector_ctor_initializer_list_eq, if_pos h]
    · intro i hi
      simp [Vector.operator_index, List.getD_eq_getElem?_getD, List.getElem?_eq_getElem hi]
  · refine ⟨{ dim := S, coord := values }, ?_, ⟨rfl, h⟩, ?_⟩
    · rw [point_ctor_initializer_list_eq, if_pos h]
    · intro i hi
      simp [Point.operator_index, List.getD_eq_getElem?_getD, List.getElem?_eq_getElem hi]

theorem C7_initializer_list_components_witness :
    ([1, 2, 3] : List ℚ).length = 3 ∧
    (∃ v : Vector ℚ 3, Vector.ctor_initializer_list [1, 2, 3] = .ok v ∧ v.Valid ∧
        ∀ i (hi : i < ([1, 2, 3] : List ℚ).length),
          v.operator_index i = ([1, 2, 3] : List ℚ)[i])
    ∧ (∃ p : Point ℚ 3, Point.ctor_initializer_list [1, 2, 3] = .ok p ∧ p.Valid ∧
        ∀ i (hi : i < ([1, 2, 3] : List ℚ).length),
          p.operator_index i = ([1, 2, 3] : List ℚ)[i]) :=
  ⟨by decide, C7_initializer_list_components [1, 2, 3] (by decide)⟩

/-! ## Arithmetic round trips -/

/-- Running an update loop over the whole storage and then the loop of the inverse
update gives back the storage. -/
theorem forLoop_set_cancel (f g : Nat → T → T) (hfg : ∀ i x, g i (f i x) = x)
    (c : List T) :
    forLoop (fun i d => d.set i (g i (d.getD i 0))) c.length
      (forLoop (fun i d => d.set i (f i (d.getD i 0))) c.length c) = c := by
  have hlen1 := forLoop_set_length (fun i d => f i (d.getD i 0)) c.length c
  have hlen2 := forLoop_set_length (fun i d => g i (d.getD i 0)) c.length
    (forLoop (fun i d => d.set i (f i (d.getD i 0))) c.length c)
  apply list_eq_of_getD _ _ (by rw [hlen2, hlen1])
  intro j hj
  rw [hlen2, hlen1] at hj
  have h2 := forLoop_set_getD g c.length
    (forLoop (fun i d => d.set i (f i (d.getD i 0))) c.length c) j (by rw [hlen1]; exact hj)
  have h1 := forLoop_set_getD f c.length c j hj
  rw [h2, if_pos hj, h1, if_pos hj, hfg]

theorem vector_operator_eq_self (a : Vector T S) : Vector.operator_eq a a = true := by
  rw [vector_operator_eq_iff]
  intro i _
  simp

theorem point_operator_eq_self (a : Point T S) : Point.operator_eq a a = true := by
  rw [point_operator_eq_iff]
  intro i _
  simp

/-- C8: for valid `Vector`s `a`, `b` and valid `Point`s `p`, `q` of one dimension,
`(a + b) - b` is identical to `a` component by component, hence equal to it
under `operator==`; likewise `(p + q) - q` and `p`. -/
theorem C8_add_then_sub_roundtrip (a b : Vector T S) (p q : Point T S)
    (ha : a.Valid) (_hb : b.Valid) (hp : p.Valid) (_hq : q.Valid) :
    Vector.operator_sub (Vector.operator_add a b) b = a
    ∧ Vector.operator_eq (Vector.operator_sub (Vector.operator_add a b) b) a = true
    ∧ Point.operator_sub (Point.operator_add p q) q = p
    ∧ Point.operator_eq (Point.operator_sub (Point.operator_add p q) q) p = true := by
  have hv : Vector.operator_sub (Vector.operator_add a b) b = a := by
    obtain ⟨d, c⟩ := a
    obtain ⟨hd, hc⟩ := ha
    simp only at hd hc
    subst hc
    subst hd
    simp only [Vector.operator_sub, Vector.operator_add, Vector.operator_sub_assign,
      Vector.operator_add_assign]
    rw [forLoop_set_cancel (fun i x => x + b.comp.getD i 0) (fun i x => x - b.comp.getD i 0)
      (fun i x => by simp)]
  have hpt : Point.operator_sub (Point.operator_add p q) q = p := by
    obtain ⟨d, c⟩ := p
    obtain ⟨hd, hc⟩ := hp
    simp only at hd hc
    subst hc
    subst hd
    simp only [Point.operator_sub, Point.operator_add, Point.operator_sub_assign,
      Point.operator_add_assign]
    rw [forLoop_set_cancel (fun i x => x + q.coord.getD i 0)
      (fun i x => x - q.coord.getD i 0) (fun i x => by simp)]
  refine ⟨hv, ?_, hpt, ?_⟩
  · rw [hv]; exact vector_operator_eq_self a
  · rw [hpt]; exact point_operator_eq_self p

theorem C8_add_then_sub_roundtrip_witness :
    (⟨2, [1, 2]⟩ : Vector ℚ 2).Valid ∧ (⟨2, [5, 7]⟩ : Vector ℚ 2).Valid ∧
      (⟨2, [3, 4]⟩ : Point ℚ 2).Valid ∧ (⟨2, [9, 8]⟩ : Point ℚ 2).Valid ∧
      Vector.operator_sub (Vector.operator_add (⟨2, [1, 2]⟩ : Vector ℚ 2) ⟨2, [5, 7]⟩)
        ⟨2, [5, 7]⟩ = ⟨2, [1, 2]⟩ ∧
      Point.operator_sub (Point.operator_add (⟨2, [3, 4]⟩ : Point ℚ 2) ⟨2, [9, 8]⟩)
        ⟨2, [9, 8]⟩ = ⟨2, [3, 4]⟩ :=
  ⟨by decide, by decide, by decide, by decide,
    (C8_add_then_sub_roundtrip (⟨2, [1, 2]⟩ : Vector ℚ 2) ⟨2, [5, 7]⟩
      (⟨2, [3, 4]⟩ : Point ℚ 2) ⟨2, [9, 8]⟩ (by decide) (by decide) (by decide)
      (by decide)).1,
    (C8_add_then_sub_roundtrip (⟨2, [1, 2]⟩ : Vector ℚ 2) ⟨2, [5, 7]⟩
      (⟨2, [3, 4]⟩ : Point ℚ 2) ⟨2, [9, 8]⟩ (by decide) (by decide) (by decide)
      (by decide)).2.2.1⟩

/-- C9: for a valid `Vector` `a`, a valid `Point` `p` and a nonzero scalar `s`,
`(a * s) / s` is identical to `a`, hence equal to it under `operator==`; likewise
`(p * s) / s` and `p`. -/
theorem C9_mul_then_div_roundtrip (a : Vector T S) (p : Point T S) (s : T)
    (ha : a.Valid) (hp : p.Valid) (hs : s ≠ 0) :
    Vector.operator_div_scalar (Vector.operator_mul_scalar a s) s = a
    ∧ Vector.operator_eq (Vector.operator_div_scalar (Vector.operator_mul_scalar a s) s) a
        = true
    ∧ Point.operator_div_scalar (Point.operator_mul_scalar p s) s = p
    ∧ Point.operator_eq (Point.operator_div_scalar (Point.operator_mul_scalar p s) s) p
        = true := by
  have hv : Vector.operator_div_scalar (Vector.operator_mul_scalar a s) s = a := by
    obtain ⟨d, c⟩ := a
    obtain ⟨hd, hc⟩ := ha
    simp only at hd hc
    subst hc
    subst hd
    simp only [Vector.operator_div_scalar, Vector.operator_mul_scalar,
      Vector.operator_div_assign, Vector.operator_mul_assign]
    rw [forLoop_set_cancel (fun _ x => x * s) (fun _ x => x / s)
      (fun i x => mul_div_cancel_right₀ x hs)]
  have hpt : Point.operator_div_scalar (Point.operator_mul_scalar p s) s = p := by
    obtain ⟨d, c⟩ := p
    obtain ⟨hd, hc⟩ := hp
    simp only at hd hc
    subst hc
    subst hd
    simp only [Point.operator_div_scalar, Point.operator_mul_scalar,
      Point.operator_div_assign, Point.operator_mul_assign]
    rw [forLoop_set_cancel (fun _ x => x * s) (fun _ x => x / s)
      (fun i x => mul_div_cancel_right₀ x hs)]
  refine ⟨hv, ?_, hpt, ?_⟩
  · rw [hv]; exact vector_operator_eq_self a
  · rw [hpt]; exact point_operator_eq_self p

theorem C9_mul_then_div_roundtrip_witness :
    (⟨2, [1, 2]⟩ : Vector ℚ 2).Valid ∧ (⟨2, [3, 4]⟩ : Point ℚ 2).Valid ∧ (7 : ℚ) ≠ 0 ∧
      Vector.operator_div_scalar (Vector.operator_mul_scalar (⟨2, [1, 2]⟩ : Vector ℚ 2) 7) 7
        = ⟨2, [1, 2]⟩ ∧
      Point.operator_div_scalar (Point.operator_mul_scalar (⟨2, [3, 4]⟩ : Point ℚ 2) 7) 7
        = ⟨2, [3, 4]⟩ :=
  ⟨by decide, by decide, by norm_num,
    (C9_mul_then_div_roundtrip (⟨2, [1, 2]⟩ : Vector ℚ 2) (⟨2, [3, 4]⟩ : Point ℚ 2) 7
      (by decide) (by decide) (by norm_num)).1,
    (C9_mul_then_div_roundtrip (⟨2, [1, 2]⟩ : Vector ℚ 2) (⟨2, [3, 4]⟩ : Point ℚ 2) 7
      (by decide) (by decide) (by norm_num)).2.2.1⟩

/-! ## Failed reads -/

theorem readSlots_succ (numGet : List Char → NumResult T) (n : Nat)
    (is : IStream) (c : List T) :
    readSlots numGet (n + 1) is c =
      ((extract numGet (readSlots numGet n is c).1
          ((readSlots numGet n is c).2.getD n 0)).1,
        (readSlots numGet n is c).2.set n
          (extract numGet (readSlots numGet n is c).1
            ((readSlots numGet n is c).2.getD n 0)).2) := rfl

theorem vector_shrLoop_eq (numGet : List Char → NumResult T) (n : Nat)
    (is : IStream) (v : Vector T S) :
    Vector.shrLoop numGet n is v =
      ((readSlots numGet n is v.comp).1,
        { dim := v.dim, comp := (readSlots numGet n is v.comp).2 }) := by
  induction n with
  | zero => rfl
  | succ n ih =>
    rw [readSlots_succ]
    show (_, _) = _
    rw [show forLoop _ n (is, v) = Vector.shrLoop numGet n is v from rfl, ih]

theorem point_shrLoop_eq (numGet : List Char → NumResult T) (n : Nat)
    (is : IStream) (v : Point T S) :
    Point.shrLoop numGet n is v =
      ((readSlots numGet n is v.coord).1,
        { dim := v.dim, coord := (readSlots numGet n is v.coord).2 }) := by
  induction n with
  | zero => rfl
  | succ n ih =>
    rw [readSlots_succ]
    show (_, _) = _
    rw [show forLoop _ n (is, v) = Point.shrLoop numGet n is v from rfl, ih]

theorem extract_of_failed {α : Type} (numGet : List Char → NumResult α) (is : IStream)
    (x : α) (h : is.failbit = true) : extract numGet is x = (is, x) := by
  simp [extract, h]

theorem list_set_getD_self (c : List T) (i : Nat) : c.set i (c.getD i 0) = c := by
  apply List.ext_getElem (by simp)
  intro j h1 h2
  by_cases hij : i = j
  · subst hij
    simp [List.getD_eq_getElem?_getD, List.getElem?_eq_getElem h2]
  · simp [List.getElem_set, hij]

theorem readSlots_length (numGet : List Char → NumResult T) (n : Nat)
    (is : IStream) (c : List T) : (readSlots numGet n is c).2.length = c.length := by
  induction n with
  | zero => rfl
  | succ n ih => rw [readSlots_succ]; simp [ih]

/-- The first `n` iterations write only slots below `n`. -/
theorem readSlots_getD_ge (numGet : List Char → NumResult T) (n : Nat)
    (is : IStream) (c : List T) (j : Nat) (hj : n ≤ j) :
    (readSlots numGet n is c).2.getD j 0 = c.getD j 0 := by
  induction n with
  | zero => rfl
  | succ n ih =>
    rw [readSlots_succ]
    show (List.set _ n _).getD j 0 = _
    rw [getD_set_other _ _ _ _ (by omega), ih (by omega)]

/-- Once the stream is failed, further iterations change nothing. -/
theorem readSlots_stuck (numGet : List Char → NumResult T) (k : Nat)
    (is : IStream) (c : List T) (hk : (readSlots numGet k is c).1.failbit = true)
    (m : Nat) : readSlots numGet (k + m) is c = readSlots numGet k is c := by
  induction m with
  | zero => rfl
  | succ m ih =>
    rw [← Nat.add_assoc, readSlots_succ, ih, extract_of_failed _ _ _ hk]
    show (_, List.set _ _ (List.getD _ _ 0)) = _
    rw [list_set_getD_self]

/-- A read that starts on a good stream and ends on a failed one has a first failing
iteration. -/
theorem readSlots_first_failure (numGet : List Char → NumResult T) (n : Nat)
    (is : IStream) (c : List T) (h0 : is.failbit = false)
    (hn : (readSlots numGet n is c).1.failbit = true) :
    ∃ k, k < n ∧ (readSlots numGet k is c).1.failbit = false ∧
      (readSlots numGet (k + 1) is c).1.failbit = true := by
  induction n with
  | zero =>
    have : (readSlots numGet 0 is c).1.failbit = is.failbit := rfl
    rw [this, h0] at hn
    cases hn
  | succ n ih =>
    cases hf : (readSlots numGet n is c).1.failbit
    · exact ⟨n, Nat.lt_succ_self n, hf, hn⟩
    · obtain ⟨k, hk, h1, h2⟩ := ih hf
      exact ⟨k, Nat.lt_succ_of_lt hk, h1, h2⟩

/-- What a failing read leaves in the storage: with `k` the first failing
iteration, slots above `k` are as before the read and slots below `k` are as the
successful iterations left them. -/
theorem readSlots_failed (numGet : List Char → NumResult T) (n : Nat)
    (is : IStream) (c : List T) (h0 : is.failbit = false)
    (hn : (readSlots numGet n is c).1.failbit = true) :
    ∃ k, k < n ∧ (readSlots numGet k is c).1.failbit = false ∧
      (readSlots numGet (k + 1) is c).1.failbit = true ∧
      (∀ i, k < i → (readSlots numGet n is c).2.getD i 0 = c.getD i 0) ∧
      (∀ i, i < k →
        (readSlots numGet n is c).2.getD i 0 = (readSlots numGet k is c).2.getD i 0) := by
  obtain ⟨k, hk, h1, h2⟩ := readSlots_first_failure numGet n is c h0 hn
  have hfin : readSlots numGet n is c = readSlots numGet (k + 1) is c := by
    have := readSlots_stuck numGet (k + 1) is c h2 (n - (k + 1))
    rwa [Nat.add_sub_cancel' (by omega)] at this
  refine ⟨k, hk, h1, h2, ?_, ?_⟩
  · intro i hi
    rw [hfin]
    exact readSlots_getD_ge numGet (k + 1) is c i (by omega)
  · intro i hi
    rw [hfin, readSlots_succ]
    show (List.set _ k _).getD i 0 = _
    rw [getD_set_other _ _ _ _ (by omega)]

/-- C10, as stated, fails: reading the input `1 2` into the 3-dimensional vector or
point `(7, 8, 9)` fails (one token is missing), yet components 0 and 1 have been
overwritten; with the malformed token `x` in `1 x 3` the read fails as well and
component 0 has been overwritten. -/
theorem C10_failed_read_changes_target :
    (Vector.operator_shr numGetInt ⟨['1', ' ', '2'], false⟩
        (⟨3, [7, 8, 9]⟩ : Vector ℚ 3)).1.failbit = true
    ∧ (Vector.operator_shr numGetInt ⟨['1', ' ', '2'], false⟩
        (⟨3, [7, 8, 9]⟩ : Vector ℚ 3)).2 = ⟨3, [1, 2, 9]⟩
    ∧ (Vector.operator_shr numGetInt ⟨['1', ' ', '2'], false⟩
        (⟨3, [7, 8, 9]⟩ : Vector ℚ 3)).2.operator_index 0
          ≠ Vector.operator_index (⟨3, [7, 8, 9]⟩ : Vector ℚ 3) 0
    ∧ (Point.operator_shr numGetInt ⟨['1', ' ', '2'], false⟩
        (⟨3, [7, 8, 9]⟩ : Point ℚ 3)).1.failbit = true
    ∧ (Point.operator_shr numGetInt ⟨['1', ' ', '2'], false⟩
        (⟨3, [7, 8, 9]⟩ : Point ℚ 3)).2.operator_index 0
          ≠ Point.operator_index (⟨3, [7, 8, 9]⟩ : Point ℚ 3) 0
    ∧ (Vector.operator_shr numGetInt ⟨['1', ' ', 'x', ' ', '3'], false⟩
        (⟨3, [7, 8, 9]⟩ : Vector ℚ 3)).1.failbit = true
    ∧ (Vector.operator_shr numGetInt ⟨['1', ' ', 'x', ' ', '3'], false⟩
        (⟨3, [7, 8, 9]⟩ : Vector ℚ 3)).2.operator_index 0
          ≠ Vector.operator_index (⟨3, [7, 8, 9]⟩ : Vector ℚ 3) 0 := by
  refine ⟨by decide, by decide, by decide, by decide, by decide, by decide, by decide⟩

/-- C10, amended: a failing `cross` leaves its receiver as it was (its argument is a
`const` reference).  `operator>>` on a valid `Vector` or `Point` called on a failed
stream changes no component.  Called on a good stream and ending on a failed
one, it has a first failing extraction, into some component `k < S`; every
component above `k` keeps the value it had before the read, and every component
below `k` keeps the value that was read into it. -/
theorem C10_failed_read_keeps_later_components
    (numGet : List Char → NumResult T) (is : IStream)
    (v a b : Vector T S) (p : Point T S) (hv : v.Valid) (hp : p.Valid) :
    (∀ e, (a.cross b).1 = .error e → (a.cross b).2 = a)
    ∧ (is.failbit = true → Vector.operator_shr numGet is v = (is, v))
    ∧ (is.failbit = false → (Vector.operator_shr numGet is v).1.failbit = true →
        ∃ k, k < S ∧ (Vector.shrLoop numGet k is v).1.failbit = false ∧
          (Vector.shrLoop numGet (k + 1) is v).1.failbit = true ∧
          (∀ i, k < i → i < S →
            (Vector.operator_shr numGet is v).2.operator_index i = v.operator_index i) ∧
          (∀ i, i < k →
            (Vector.operator_shr numGet is v).2.operator_index i =
              (Vector.shrLoop numGet k is v).2.operator_index i))
    ∧ (is.failbit = true → Point.operator_shr numGet is p = (is, p))
    ∧ (is.failbit = false → (Point.operator_shr numGet is p).1.failbit = true →
        ∃ k, k < S ∧ (Point.shrLoop numGet k is p).1.failbit = false ∧
          (Point.shrLoop numGet (k + 1) is p).1.failbit = true ∧
          (∀ i, k < i → i < S →
            (Point.operator_shr numGet is p).2.operator_index i = p.operator_index i) ∧
          (∀ i, i < k →
            (Point.operator_shr numGet is p).2.operator_index i =
              (Point.shrLoop numGet k is p).2.operator_index i)) := by
  refine ⟨?_, ?_, ?_, ?_, ?_⟩
  · intro e _
    unfold Vector.cross
    by_cases h : a.dim ≠ 3 ∨ b.dim ≠ 3
    · simp only [if_pos h]
    · simp only [if_neg h]
  · intro h
    have hs := readSlots_stuck numGet 0 is v.comp h v.dim
    rw [Nat.zero_add] at hs
    unfold Vector.operator_shr
    rw [vector_shrLoop_eq, hs]
    rfl
  · intro h0 hf
    unfold Vector.operator_shr at hf ⊢
    rw [vector_shrLoop_eq] at hf
    obtain ⟨k, hk, h1, h2, h3, h4⟩ := readSlots_failed numGet v.dim is v.comp h0 hf
    refine ⟨k, hv.1 ▸ hk, ?_, ?_, ?_, ?_⟩
    · rw [vector_shrLoop_eq]; exact h1
    · rw [vector_shrLoop_eq]; exact h2
    · intro i hi _
      rw [vector_shrLoop_eq]
      exact h3 i hi
    · intro i hi
      rw [vector_shrLoop_eq, vector_shrLoop_eq]
      exact h4 i hi
  · intro h
    have hs := readSlots_stuck numGet 0 is p.coord h p.dim
    rw [Nat.zero_add] at hs
    unfold Point.operator_shr
    rw [point_shrLoop_eq, hs]
    rfl
  · intro h0 hf
    unfold Point.operator_shr at hf ⊢
    rw [point_shrLoop_eq] at hf
    obtain ⟨k, hk, h1, h2, h3, h4⟩ := readSlots_failed numGet p.dim is p.coord h0 hf
    refine ⟨k, hp.1 ▸ hk, ?_, ?_, ?_, ?_⟩
    · rw [point_shrLoop_eq]; exact h1
    · rw [point_shrLoop_eq]; exact h2
    · intro i hi _
      rw [point_shrLoop_eq]
      exact h3 i hi
    · intro i hi
      rw [point_shrLoop_eq, point_shrLoop_eq]
      exact h4 i hi

theorem C10_failed_read_keeps_later_components_witness :
    (⟨3, [7, 8, 9]⟩ : Vector ℚ 3).Valid ∧ (⟨3, [4, 5, 6]⟩ : Point ℚ 3).Valid ∧
    (∃ k, k < 3 ∧
      (Vector.shrLoop numGetInt k ⟨['1', ' ', 'x'], false⟩
        (⟨3, [7, 8, 9]⟩ : Vector ℚ 3)).1.failbit = false ∧
      (Vector.shrLoop numGetInt (k + 1) ⟨['1', ' ', 'x'], false⟩
        (⟨3, [7, 8, 9]⟩ : Vector ℚ 3)).1.failbit = true ∧
      (∀ i, k < i → i < 3 →
        (Vector.operator_shr numGetInt ⟨['1', ' ', 'x'], false⟩
          (⟨3, [7, 8, 9]⟩ : Vector ℚ 3)).2.operator_index i =
            Vector.operator_index (⟨3, [7, 8, 9]⟩ : Vector ℚ 3) i) ∧
      (∀ i, i < k →
        (Vector.operator_shr numGetInt ⟨['1', ' ', 'x'], false⟩
          (⟨3, [7, 8, 9]⟩ : Vector ℚ 3)).2.operator_index i =
            (Vector.shrLoop numGetInt k ⟨['1', ' ', 'x'], false⟩
              (⟨3, [7, 8, 9]⟩ : Vector ℚ 3)).2.operator_index i)) :=
  ⟨by decide, by decide,
    (C10_failed_read_keeps_later_components numGetInt ⟨['1', ' ', 'x'], false⟩
      (⟨3, [7, 8, 9]⟩ : Vector ℚ 3) ⟨3, [1, 2, 3]⟩ ⟨3, [4, 5, 6]⟩
      (⟨3, [4, 5, 6]⟩ : Point ℚ 3) (by decide) (by decide)).2.2.1 rfl (by decide)⟩

/-! ## Move assignment and the default constructor -/

/-- A loop that updates every slot of an `n`-slot storage from its own value. -/
theorem forLoop_set_getD_lt (f : Nat → T → T) (c : List T) (n j : Nat)
    (hn : c.length = n) (hj : j < n) :
    (forLoop (fun i d => d.set i (f i (d.getD i 0))) n c).getD j 0 = f j (c.getD j 0) := by
  rw [forLoop_set_getD f n c j (by rw [hn]; exact hj), if_pos hj]

theorem arrayInit_getD (S : Nat) (j : Nat) : (arrayInit S (0 : T)).getD j 0 = 0 := by
  unfold arrayInit
  by_cases h : j < S
  · by_cases h0 : 0 = j
    · subst h0
      exact getD_set_same _ _ _ (by simpa using h)
    · rw [getD_set_other _ _ _ _ h0]
      simp [List.getD_eq_getElem?_getD, List.getElem?_replicate, h]
  · rw [List.getD_eq_default _ _ (by simpa using h)]

/-- C11: for valid and distinct `dst` and `src` (`Vector` or `Point`), after
`dst = std::move(src)` the receiver holds the components `src` had before the
move, the source holds `0` in every component, and both still have dimension `S`. -/
theorem C11_move_assign_zeroes_source (dst src : Vector T S) (pdst psrc : Point T S)
    (hd : dst.Valid) (hs : src.Valid) (hpd : pdst.Valid) (hps : psrc.Valid) :
    ((Vector.operator_assign_move dst src).1 = src
      ∧ (∀ i, i < S →
          (Vector.operator_assign_move dst src).1.operator_index i = src.operator_index i)
      ∧ (∀ i, i < S → (Vector.operator_assign_move dst src).2.operator_index i = 0)
      ∧ (Vector.operator_assign_move dst src).2.Valid)
    ∧ ((Point.operator_assign_move pdst psrc).1 = psrc
      ∧ (∀ i, i < S →
          (Point.operator_assign_move pdst psrc).1.operator_index i =
            psrc.operator_index i)
      ∧ (∀ i, i < S → (Point.operator_assign_move pdst psrc).2.operator_index i = 0)
      ∧ (Point.operator_assign_move pdst psrc).2.Valid) := by
  have hv : (Vector.operator_assign_move dst src).1 = src :=
    vector_ctor_copy_eq dst.comp src hs hd.2
  have hp : (Point.operator_assign_move pdst psrc).1 = psrc :=
    point_ctor_copy_eq pdst.coord psrc hps hpd.2
  refine ⟨⟨hv, ?_, ?_, ?_⟩, ⟨hp, ?_, ?_, ?_⟩⟩
  · intro i _
    rw [hv]
  · intro i hi
    show (forLoop (fun i c => c.set i 0) src.dim src.comp).getD i 0 = 0
    rw [hs.1]
    exact forLoop_set_getD_lt (fun _ _ => 0) src.comp S i hs.2 hi
  · exact ⟨hs.1, (forLoop_set_length (fun _ _ => 0) src.dim src.comp).trans hs.2⟩
  · intro i _
    rw [hp]
  · intro i hi
    show (forLoop (fun i c => c.set i 0) psrc.dim psrc.coord).getD i 0 = 0
    rw [hps.1]
    exact forLoop_set_getD_lt (fun _ _ => 0) psrc.coord S i hps.2 hi
  · exact ⟨hps.1, (forLoop_set_length (fun _ _ => 0) psrc.dim psrc.coord).trans hps.2⟩

theorem C11_move_assign_zeroes_source_witness :
    (⟨2, [1, 2]⟩ : Vector ℚ 2).Valid ∧ (⟨2, [5, 7]⟩ : Vector ℚ 2).Valid ∧
    (⟨2, [3, 4]⟩ : Point ℚ 2).Valid ∧ (⟨2, [9, 8]⟩ : Point ℚ 2).Valid ∧
    ((Vector.operator_assign_move (⟨2, [1, 2]⟩ : Vector ℚ 2) ⟨2, [5, 7]⟩).1 = ⟨2, [5, 7]⟩)
    ∧ (∀ i, i < 2 →
        (Vector.operator_assign_move (⟨2, [1, 2]⟩ : Vector ℚ 2)
          ⟨2, [5, 7]⟩).2.operator_index i = 0)
    ∧ (∀ i, i < 2 →
        (Point.operator_assign_move (⟨2, [3, 4]⟩ : Point ℚ 2)
          ⟨2, [9, 8]⟩).2.operator_index i = 0) :=
  ⟨by decide, by decide, by decide, by decide,
    (C11_move_assign_zeroes_source (⟨2, [1, 2]⟩ : Vector ℚ 2) ⟨2, [5, 7]⟩
      (⟨2, [3, 4]⟩ : Point ℚ 2) ⟨2, [9, 8]⟩ (by decide) (by decide) (by decide)
      (by decide)).1.1,
    (C11_move_assign_zeroes_source (⟨2, [1, 2]⟩ : Vector ℚ 2) ⟨2, [5, 7]⟩
      (⟨2, [3, 4]⟩ : Point ℚ 2) ⟨2, [9, 8]⟩ (by decide) (by decide) (by decide)
      (by decide)).1.2.2.1,
    (C11_move_assign_zeroes_source (⟨2, [1, 2]⟩ : Vector ℚ 2) ⟨2, [5, 7]⟩
      (⟨2, [3, 4]⟩ : Point ℚ 2) ⟨2, [9, 8]⟩ (by decide) (by decide) (by decide)
      (by decide)).2.2.2.1⟩

/-- C20: the default constructor of `Vector` and of `Point` yields, for every
dimension, a valid instance whose every component `i` in `[0, S)` is 0, not only
component 0. -/
theorem C20_default_ctor_all_zero :
    (∀ i, i < S → (Vector.ctor_default : Vector T S).operator_index i = 0)
    ∧ (Vector.ctor_default : Vector T S) = { dim := S, comp := List.replicate S 0 }
    ∧ (∀ i, i < S → (Point.ctor_default : Point T S).operator_index i = 0)
    ∧ (Point.ctor_default : Point T S) = { dim := S, coord := List.replicate S 0 }
    ∧ (Vector.ctor_default : Vector ℚ 3) = ⟨3, [0, 0, 0]⟩
    ∧ (Point.ctor_default : Point ℚ 3) = ⟨3, [0, 0, 0]⟩ := by
  have hrep : (arrayInit S (0 : T)) = List.replicate S 0 := by
    apply list_eq_of_getD _ _ (by simp [arrayInit_length])
    intro j hj
    rw [arrayInit_length] at hj
    rw [arrayInit_getD]
    simp [List.getD_eq_getElem?_getD, List.getElem?_replicate, hj]
  refine ⟨?_, ?_, ?_, ?_, by decide, by decide⟩
  · intro i _
    exact arrayInit_getD S i
  · simp only [Vector.ctor_default, hrep]
  · intro i _
    exact arrayInit_getD S i
  · simp only [Point.ctor_default, hrep]

/-! ## Text output -/

theorem intercalate_go_snoc (s : String) (l : List String) (acc a : String) :
    String.intercalate.go acc s (l ++ [a]) = String.intercalate.go acc s l ++ s ++ a := by
  induction l generalizing acc with
  | nil => simp [String.intercalate.go]
  | cons b bs ih => simp [String.intercalate.go, ih]

theorem intercalate_snoc (s : String) (l : List String) (a : String) (h : l ≠ []) :
    s.intercalate (l ++ [a]) = s.intercalate l ++ s ++ a := by
  cases l with
  | nil => exact absurd rfl h
  | cons b bs => simp [String.intercalate, intercalate_go_snoc]

theorem intercalate_range_succ (r : Nat → String) (n : Nat) (hn : 0 < n) :
    ", ".intercalate ((List.range (n + 1)).map r) =
      ", ".intercalate ((List.range n).map r) ++ ", " ++ r n := by
  rw [List.range_succ, List.map_append, List.map_singleton, intercalate_snoc]
  intro h
  have hl : ((List.range n).map r).length = 0 := by rw [h]; rfl
  rw [List.length_map, List.length_range] at hl
  omega

/-- The output loop before its last iteration: every rendering written so far is
followed by the separator. -/
theorem shlLoop_before_last (r : Nat → String) (start : String) (d n : Nat) (hn : n ≤ d - 1) :
    forLoop (fun i out => (out ++ r i) ++ (if i ≠ d - 1 then ", " else ")")) n start =
      if n = 0 then start
      else start ++ ", ".intercalate ((List.range n).map r) ++ ", " := by
  induction n with
  | zero => rfl
  | succ n ih =>
    have hne : n ≠ d - 1 := by omega
    show (forLoop _ n start ++ r n) ++ (if n ≠ d - 1 then ", " else ")") = _
    rw [ih (by omega), if_pos hne, if_neg (Nat.succ_ne_zero n)]
    by_cases h0 : n = 0
    · subst h0
      rw [if_pos rfl, show List.range (0 + 1) = [0] from rfl]
      simp [String.intercalate, String.intercalate.go]
    · rw [if_neg h0, intercalate_range_succ r n (Nat.pos_of_ne_zero h0)]
      simp [String.append_assoc]

/-- The output loop over `d ≥ 1` slots writes the renderings in index order with
`d - 1` separators and the closing parenthesis. -/
theorem shlLoop_eq (r : Nat → String) (start : String) (d : Nat) (hd : 0 < d) :
    forLoop (fun i out => (out ++ r i) ++ (if i ≠ d - 1 then ", " else ")")) d start =
      start ++ ", ".intercalate ((List.range d).map r) ++ ")" := by
  obtain ⟨m, rfl⟩ : ∃ m, d = m + 1 := ⟨d - 1, by omega⟩
  show (forLoop _ m start ++ r m) ++ (if m ≠ m + 1 - 1 then ", " else ")") = _
  have hm : ¬ (m ≠ m + 1 - 1) := by simp
  rw [shlLoop_before_last r start (m + 1) m (by omega), if_neg hm]
  by_cases h0 : m = 0
  · subst h0
    rw [if_pos rfl, show List.range (0 + 1) = [0] from rfl]
    simp [String.intercalate, String.intercalate.go]
  · rw [if_neg h0, intercalate_range_succ r m (Nat.pos_of_ne_zero h0)]
    simp [String.append_assoc]

/-- C12: for `S ≥ 1` and a valid `Vector` or `Point`, `operator<<` appends to the
stream exactly `(`, the renderings of components `0, ..., S-1` in index order
separated by `, `, and `)`; whenever 10, 20 and 30 are rendered as `10`, `20` and
`30`, the 3-dimensional `(10, 20, 30)` is written as `(10, 20, 30)`. -/
theorem C12_output_format (render : T → String) (out : String) (v : Vector T S)
    (p : Point T S) (hS : 0 < S) (hv : v.Valid) (hp : p.Valid) :
    Vector.operator_shl render out v =
        out ++ "(" ++
          ", ".intercalate ((List.range S).map (fun i => render (v.operator_index i)))
          ++ ")"
    ∧ Point.operator_shl render out p =
        out ++ "(" ++
          ", ".intercalate ((List.range S).map (fun i => render (p.operator_index i)))
          ++ ")"
    ∧ (∀ rd : ℚ → String, rd 10 = "10" → rd 20 = "20" → rd 30 = "30" →
        Point.operator_shl rd "" (⟨3, [10, 20, 30]⟩ : Point ℚ 3) = "(10, 20, 30)"
        ∧ Vector.operator_shl rd "" (⟨3, [10, 20, 30]⟩ : Vector ℚ 3) = "(10, 20, 30)") := by
  refine ⟨?_, ?_, ?_⟩
  · unfold Vector.operator_shl Vector.operator_index
    rw [hv.1]
    exact shlLoop_eq (fun i => render (v.comp.getD i 0)) (out ++ "(") S hS
  · unfold Point.operator_shl Point.operator_index
    rw [hp.1]
    exact shlLoop_eq (fun i => render (p.coord.getD i 0)) (out ++ "(") S hS
  · intro rd h1 h2 h3
    constructor
    · simp only [Point.operator_shl, forLoop, List.getD_cons_zero, List.getD_cons_succ,
        h1, h2, h3]
      decide
    · simp only [Vector.operator_shl, forLoop, List.getD_cons_zero, List.getD_cons_succ,
        h1, h2, h3]
      decide

theorem C12_output_format_witness :
    0 < 2 ∧ (⟨2, [4, 5]⟩ : Vector ℚ 2).Valid ∧ (⟨2, [6, 7]⟩ : Point ℚ 2).Valid ∧
    Vector.operator_shl (fun q : ℚ => toString q.num) "v = " (⟨2, [4, 5]⟩ : Vector ℚ 2) =
        "v = " ++ "(" ++
          ", ".intercalate ((List.range 2).map (fun i =>
            (fun q : ℚ => toString q.num)
              (Vector.operator_index (⟨2, [4, 5]⟩ : Vector ℚ 2) i)))
          ++ ")"
    ∧ Point.operator_shl (fun q : ℚ => toString q.num) "" (⟨3, [10, 20, 30]⟩ : Point ℚ 3)
        = "(10, 20, 30)" :=
  ⟨by decide, by decide, by decide,
    (C12_output_format (fun q : ℚ => toString q.num) "v = " (⟨2, [4, 5]⟩ : Vector ℚ 2)
      (⟨2, [6, 7]⟩ : Point ℚ 2) (by decide) (by decide) (by decide)).1,
    ((C12_output_format (fun q : ℚ => toString q.num) "v = " (⟨2, [4, 5]⟩ : Vector ℚ 2)
      (⟨2, [6, 7]⟩ : Point ℚ 2) (by decide) (by decide) (by decide)).2.2
        (fun q : ℚ => toString q.num) (by decide) (by decide) (by decide)).1⟩

/-! ## Text input -/

theorem tokensText_append {α : Type} (pre post : List (List Char × List Char × α))
    (tail : List Char) :
    tokensText (pre ++ post) tail = tokensText pre (tokensText post tail) := by
  induction pre with
  | nil => rfl
  | cons x pre ih =>
    obtain ⟨w, t, v⟩ := x
    simp [tokensText, ih]

theorem tokenInput_suffix {α : Type} (numGet : List Char → NumResult α)
    (pre post : List (List Char × List Char × α)) (tail : List Char)
    (h : TokenInput numGet (pre ++ post) tail) : TokenInput numGet post tail := by
  induction pre with
  | nil => exact h
  | cons x pre ih =>
    obtain ⟨w, t, v⟩ := x
    exact ih h.2.2.2

/-- Skipping the white space in front of a token stops at the token. -/
theorem dropWhile_ws_token (w t rest : List Char)
    (hw : ∀ c ∈ w, isspace c = true) (ht : t ≠ [])
    (hns : ∀ c ∈ t, isspace c = false) :
    (w ++ (t ++ rest)).dropWhile isspace = t ++ rest := by
  rw [List.dropWhile_append_of_pos hw]
  cases t with
  | nil => exact absurd rfl ht
  | cons c cs =>
    have hc : isspace c = false := hns c (List.mem_cons_self c cs)
    simp [List.dropWhile_cons, hc]

/-- One extraction on a good stream that stands before a numeric token. -/
theorem extract_token {α : Type} (numGet : List Char → NumResult α)
    (w t rest : List Char) (v x : α) (hw : ∀ c ∈ w, isspace c = true)
    (ht : NumericToken numGet t v) (hr : tokenEnd rest = true) :
    extract numGet { buf := w ++ (t ++ rest), failbit := false } x =
      ({ buf := rest, failbit := false }, v) := by
  obtain ⟨hne, hns, hget⟩ := ht
  have hd := dropWhile_ws_token w t rest hw hne hns
  have hg := hget rest hr
  cases hcs : t ++ rest with
  | nil =>
    cases t with
    | nil => exact absurd rfl hne
    | cons c cs => simp at hcs
  | cons c cs =>
    rw [hcs] at hd hg
    simp [extract, hd, hg]

/-- The read loop over a text of numeric tokens: after as many iterations as the
tokens in `pre`, the stream is good and stands before `post`, and the slots
written hold the values of `pre`. -/
theorem readSlots_tokens (numGet : List Char → NumResult T)
    (pre post : List (List Char × List Char × T)) (tail : List Char) (c : List T)
    (h : TokenInput numGet (pre ++ post) tail) (hc : pre.length ≤ c.length) :
    (readSlots numGet pre.length
        { buf := tokensText (pre ++ post) tail, failbit := false } c).1 =
      { buf := tokensText post tail, failbit := false }
    ∧ ∀ j, j < pre.length →
        (readSlots numGet pre.length
          { buf := tokensText (pre ++ post) tail, failbit := false } c).2.getD j 0 =
        (pre.map (fun x => x.2.2)).getD j 0 := by
  induction pre using List.reverseRecOn generalizing post with
  | nil => exact ⟨rfl, fun j hj => absurd hj (Nat.not_lt_zero j)⟩
  | append_singleton pre x ih =>
    obtain ⟨w, t, v⟩ := x
    have happ : pre ++ [(w, t, v)] ++ post = pre ++ ((w, t, v) :: post) := by simp
    rw [happ] at h ⊢
    have hlen : (pre ++ [(w, t, v)]).length = pre.length + 1 := by simp
    rw [hlen] at hc ⊢
    obtain ⟨ih1, ih2⟩ := ih ((w, t, v) :: post) h (by omega)
    have hsuf := tokenInput_suffix numGet pre ((w, t, v) :: post) tail h
    rw [readSlots_succ, ih1]
    have hex := extract_token numGet w t (tokensText post tail) v
      ((readSlots numGet pre.length
        { buf := tokensText (pre ++ (w, t, v) :: post) tail, failbit := false } c).2.getD
          pre.length 0) hsuf.1 hsuf.2.1 hsuf.2.2.1
    have htt : tokensText ((w, t, v) :: post) tail = w ++ (t ++ tokensText post tail) := rfl
    rw [htt, hex]
    refine ⟨rfl, ?_⟩
    intro j hj
    show (List.set _ pre.length v).getD j 0 = _
    by_cases hjp : pre.length = j
    · subst hjp
      rw [getD_set_same _ _ _ (by rw [readSlots_length]; omega)]
      simp [List.getD_eq_getElem?_getD]
    · rw [getD_set_other _ _ _ _ hjp, ih2 j (by omega)]
      have hj2 : j < pre.length := by omega
      simp [List.getD_eq_getElem?_getD, List.getElem?_append_left, hj2]

/-- Reading a text of exactly as many numeric tokens as there are slots. -/
theorem readSlots_all_tokens (numGet : List Char → NumResult T)
    (toks : List (List Char × List Char × T)) (tail : List Char) (c : List T)
    (h : TokenInput numGet toks tail) (hc : c.length = toks.length) :
    readSlots numGet toks.length { buf := tokensText toks tail, failbit := false } c =
      ({ buf := tail, failbit := false }, toks.map (fun x => x.2.2)) := by
  have hh : TokenInput numGet (toks ++ []) tail := by simpa using h
  obtain ⟨h1, h2⟩ := readSlots_tokens numGet toks [] tail c hh (by omega)
  rw [List.append_nil] at h1 h2
  refine Prod.ext h1 ?_
  apply list_eq_of_getD _ _ (by rw [readSlots_length]; simp [hc])
  intro j hj
  rw [readSlots_length, hc] at hj
  exact h2 j hj

theorem not_isspace_of_isDigit (c : Char) (h : c.isDigit = true) :
    isspace c = false := by
  cases hw : isspace c with
  | false => rfl
  | true =>
    simp only [isspace, Bool.or_eq_true, decide_eq_true_eq] at hw
    rcases hw with ((((hw | hw) | hw) | hw) | hw) | hw <;> subst hw <;>
      exact absurd h (by decide)

theorem takeWhile_isDigit_tokenEnd (rest : List Char) (hr : tokenEnd rest = true) :
    rest.takeWhile Char.isDigit = [] ∧ rest.dropWhile Char.isDigit = rest := by
  cases rest with
  | nil => exact ⟨rfl, rfl⟩
  | cons c cs =>
    have hc : c.isDigit = false := by
      cases hd : c.isDigit with
      | false => rfl
      | true =>
        have := not_isspace_of_isDigit c hd
        rw [show tokenEnd (c :: cs) = isspace c from rfl, this] at hr
        cases hr
    simp [List.takeWhile_cons, List.dropWhile_cons, hc]

/-- A non-empty run of decimal digits is a numeric token of the decimal parser. -/
theorem numGetInt_digits (ds : List Char) (v : T) (hne : ds ≠ [])
    (hd : ∀ c ∈ ds, c.isDigit = true) (hv : v = (digitsValue ds : T)) :
    NumericToken numGetInt ds v := by
  refine ⟨hne, fun c hc => not_isspace_of_isDigit c (hd c hc), ?_⟩
  intro rest hr
  obtain ⟨ht, hdr⟩ := takeWhile_isDigit_tokenEnd rest hr
  have htw : (ds ++ rest).takeWhile Char.isDigit = ds := by
    rw [List.takeWhile_append_of_pos hd, ht, List.append_nil]
  have hdw : (ds ++ rest).dropWhile Char.isDigit = rest := by
    rw [List.dropWhile_append_of_pos hd, hdr]
  have hnat : numGetNat (ds ++ rest) = some (digitsValue ds, rest) := by
    unfold numGetNat
    rw [htw, hdw]
    cases ds with
    | nil => exact absurd rfl hne
    | cons d ds => rfl
  cases ds with
  | nil => exact absurd rfl hne
  | cons d ds =>
    have hdig : d.isDigit = true := hd d (List.mem_cons_self d ds)
    have h1 : d ≠ '-' := by
      intro h; subst h; exact absurd hdig (by decide)
    have h2 : d ≠ '+' := by
      intro h; subst h; exact absurd hdig (by decide)
    have hcons : (d :: ds) ++ rest = d :: (ds ++ rest) := rfl
    rw [hcons] at hnat ⊢
    unfold numGetInt
    split
    · rename_i heq
      exact absurd (List.cons.inj heq).1 h1
    · rename_i heq
      exact absurd (List.cons.inj heq).1 h2
    · rw [hnat, hv]

/-- C13: on a fresh stream over a text of `S` white-space separated numeric tokens
(then the end of the text, or white space and anything), `operator>>` on a valid
`Vector` or `Point` succeeds, leaves component `i` equal to the value of token `i`
and consumes exactly the tokens; reading `100 200 356` into a fresh object of
dimension 3 and writing it gives `(100, 200, 356)` whenever those three values
are rendered as `100`, `200` and `356`. -/
theorem C13_read_tokens_in_order (numGet : List Char → NumResult T)
    (toks : List (List Char × List Char × T)) (tail : List Char)
    (v : Vector T S) (p : Point T S) (hv : v.Valid) (hp : p.Valid)
    (hn : toks.length = S) (hin : TokenInput numGet toks tail) :
    Vector.operator_shr numGet { buf := tokensText toks tail, failbit := false } v =
        ({ buf := tail, failbit := false },
          { dim := S, comp := toks.map (fun x => x.2.2) })
    ∧ (∀ i (hi : i < toks.length),
        (Vector.operator_shr numGet { buf := tokensText toks tail, failbit := false }
          v).2.operator_index i = (toks[i]).2.2)
    ∧ Point.operator_shr numGet { buf := tokensText toks tail, failbit := false } p =
        ({ buf := tail, failbit := false },
          { dim := S, coord := toks.map (fun x => x.2.2) })
    ∧ (∀ i (hi : i < toks.length),
        (Point.operator_shr numGet { buf := tokensText toks tail, failbit := false }
          p).2.operator_index i = (toks[i]).2.2)
    ∧ (∀ rd : ℚ → String, rd 100 = "100" → rd 200 = "200" → rd 356 = "356" →
        Point.operator_shl rd ""
            (Point.operator_shr numGetInt
              { buf := "100 200 356".toList, failbit := false }
              (Point.ctor_default : Point ℚ 3)).2 = "(100, 200, 356)"
        ∧ Vector.operator_shl rd ""
            (Vector.operator_shr numGetInt
              { buf := "100 200 356".toList, failbit := false }
              (Vector.ctor_default : Vector ℚ 3)).2 = "(100, 200, 356)") := by
  subst hn
  have hvec : Vector.operator_shr numGet
      { buf := tokensText toks tail, failbit := false } v =
        ({ buf := tail, failbit := false },
          { dim := toks.length, comp := toks.map (fun x => x.2.2) }) := by
    unfold Vector.operator_shr
    rw [vector_shrLoop_eq, hv.1,
      readSlots_all_tokens numGet toks tail v.comp hin hv.2]
  have hpt : Point.operator_shr numGet
      { buf := tokensText toks tail, failbit := false } p =
        ({ buf := tail, failbit := false },
          { dim := toks.length, coord := toks.map (fun x => x.2.2) }) := by
    unfold Point.operator_shr
    rw [point_shrLoop_eq, hp.1,
      readSlots_all_tokens numGet toks tail p.coord hin hp.2]
  refine ⟨hvec, ?_, hpt, ?_, ?_⟩
  · intro i hi
    rw [hvec]
    simp [Vector.operator_index, List.getD_eq_getElem?_getD, hi]
  · intro i hi
    rw [hpt]
    simp [Point.operator_index, List.getD_eq_getElem?_getD, hi]
  · intro rd h1 h2 h3
    have e1 : (Point.operator_shr numGetInt
        { buf := "100 200 356".toList, failbit := false }
        (Point.ctor_default : Point ℚ 3)).2 = ⟨3, [100, 200, 356]⟩ := by decide
    have e2 : (Vector.operator_shr numGetInt
        { buf := "100 200 356".toList, failbit := false }
        (Vector.ctor_default : Vector ℚ 3)).2 = ⟨3, [100, 200, 356]⟩ := by decide
    rw [e1, e2]
    constructor
    · simp only [Point.operator_shl, forLoop, List.getD_cons_zero, List.getD_cons_succ,
        h1, h2, h3]
      decide
    · simp only [Vector.operator_shl, forLoop, List.getD_cons_zero, List.getD_cons_succ,
        h1, h2, h3]
      decide

theorem C13_read_tokens_in_order_witness :
    (⟨2, [8, 9]⟩ : Vector ℚ 2).Valid ∧ (⟨2, [0, 0]⟩ : Point ℚ 2).Valid ∧
    ([(([] : List Char), ['1', '2'], (12 : ℚ)), ([' ', '\n'], ['7'], 7)].length = 2) ∧
    TokenInput numGetInt
      [(([] : List Char), ['1', '2'], (12 : ℚ)), ([' ', '\n'], ['7'], 7)] [' ', 'x'] ∧
    Vector.operator_shr numGetInt
        { buf := tokensText
            [(([] : List Char), ['1', '2'], (12 : ℚ)), ([' ', '\n'], ['7'], 7)] [' ', 'x'],
          failbit := false }
        (⟨2, [8, 9]⟩ : Vector ℚ 2) =
      ({ buf := [' ', 'x'], failbit := false },
        { dim := 2,
          comp := [(([] : List Char), ['1', '2'], (12 : ℚ)),
            ([' ', '\n'], ['7'], 7)].map (fun x => x.2.2) }) :=
  have hin : TokenInput numGetInt
      [(([] : List Char), ['1', '2'], (12 : ℚ)), ([' ', '\n'], ['7'], 7)] [' ', 'x'] :=
    ⟨by decide, numGetInt_digits _ _ (by decide) (by decide) (by decide), by decide,
      by decide, numGetInt_digits _ _ (by decide) (by decide) (by decide), by decide,
      trivial⟩
  ⟨by decide, by decide, rfl, hin,
    (C13_read_tokens_in_order numGetInt
      [(([] : List Char), ['1', '2'], (12 : ℚ)), ([' ', '\n'], ['7'], 7)] [' ', 'x']
      (⟨2, [8, 9]⟩ : Vector ℚ 2) (⟨2, [0, 0]⟩ : Point ℚ 2) (by decide) (by decide) rfl
      hin).1⟩

/-- One extraction on a good stream fails exactly when, after the leading white
space, the text is exhausted or the parser fails on it. -/
theorem extract_failbit_iff {α : Type} (numGet : List Char → NumResult α)
    (is : IStream) (x : α) (h : is.failbit = false) :
    (extract numGet is x).1.failbit = true ↔
      (is.buf.dropWhile isspace = [] ∨
        (numGet (is.buf.dropWhile isspace)).failed = true) := by
  unfold extract
  rw [h]
  simp only [Bool.false_eq_true, if_false]
  cases hd : is.buf.dropWhile isspace with
  | nil => simp
  | cons c cs =>
    cases hg : numGet (c :: cs) with
    | value v rest => simp [hg, NumResult.failed]
    | failure st rest => simp [hg, NumResult.failed]

/-- The read loop started on a good stream ends failed exactly when some iteration
reached with the stream still good finds no number to extract. -/
theorem readSlots_failbit_iff (numGet : List Char → NumResult T) (n : Nat)
    (buf : List Char) (c : List T) :
    (readSlots numGet n { buf := buf, failbit := false } c).1.failbit = true ↔
      ∃ k rest, k < n ∧
        (readSlots numGet k { buf := buf, failbit := false } c).1 =
          { buf := rest, failbit := false } ∧
        (rest.dropWhile isspace = [] ∨
          (numGet (rest.dropWhile isspace)).failed = true) := by
  constructor
  · intro hf
    obtain ⟨k, hk, h1, h2⟩ :=
      readSlots_first_failure numGet n { buf := buf, failbit := false } c rfl hf
    refine ⟨k, (readSlots numGet k { buf := buf, failbit := false } c).1.buf, hk, ?_, ?_⟩
    · cases hst : (readSlots numGet k { buf := buf, failbit := false } c).1 with
      | mk b f =>
        rw [hst] at h1
        simp only at h1
        rw [h1]
    · rw [readSlots_succ] at h2
      exact (extract_failbit_iff numGet _ _ h1).mp h2
  · rintro ⟨k, rest, hk, hst, hcond⟩
    have h2 : (readSlots numGet (k + 1) { buf := buf, failbit := false } c).1.failbit
        = true := by
      rw [readSlots_succ]
      apply (extract_failbit_iff numGet _ _ (by rw [hst])).mpr
      rw [hst]
      exact hcond
    have := readSlots_stuck numGet (k + 1) { buf := buf, failbit := false } c h2
      (n - (k + 1))
    rw [Nat.add_sub_cancel' (by omega)] at this
    rw [this]
    exact h2

/-- The read loop over a text with fewer numeric tokens than slots, after which no
number follows, ends failed. -/
theorem readSlots_short_input (numGet : List Char → NumResult T) (n : Nat)
    (toks : List (List Char × List Char × T)) (tail : List Char) (c : List T)
    (hk : toks.length < n) (hn : n ≤ c.length) (hin : TokenInput numGet toks tail)
    (hcond : tail.dropWhile isspace = [] ∨
      (numGet (tail.dropWhile isspace)).failed = true) :
    (readSlots numGet n { buf := tokensText toks tail, failbit := false } c).1.failbit
      = true := by
  apply (readSlots_failbit_iff numGet n _ c).mpr
  have hh : TokenInput numGet (toks ++ []) tail := by simpa using hin
  obtain ⟨h1, _⟩ := readSlots_tokens numGet toks [] tail c hh (by omega)
  rw [List.append_nil] at h1
  exact ⟨toks.length, tail, hk, h1, hcond⟩

/-- C14, as stated, fails: the text `1 2 3,` has the three white-space separated
tokens `1`, `2` and `3,`; the third is not a numeric token (the decimal parser reads
`3` and leaves the comma), yet `operator>>` on a fresh 3-dimensional `Vector` or
`Point` does not leave the stream failed. -/
theorem C14_trailing_characters_not_detected :
    tokensText [(([] : List Char), ['1'], (1 : ℚ)), ([' '], ['2'], 2),
        ([' '], ['3', ','], 3)] [] = "1 2 3,".toList
    ∧ (∀ v : ℚ, ¬ NumericToken numGetInt ['3', ','] v)
    ∧ numGetInt ['3', ','] = NumResult.value (3 : ℚ) [',']
    ∧ (Vector.operator_shr numGetInt { buf := "1 2 3,".toList, failbit := false }
        (Vector.ctor_default : Vector ℚ 3)).1.failbit = false
    ∧ (Point.operator_shr numGetInt { buf := "1 2 3,".toList, failbit := false }
        (Point.ctor_default : Point ℚ 3)).1.failbit = false := by
  refine ⟨by decide, ?_, by decide, by decide, by decide⟩
  intro v h
  have h1 := h.2.2 [] rfl
  have h2 : numGetInt (['3', ','] ++ []) = NumResult.value (3 : ℚ) [','] := by decide
  rw [h2] at h1
  simp at h1

/-- C14, amended: `operator>>` on a fresh stream and a valid `Vector` or `Point`
leaves the stream failed exactly when one of its `S` extractions fails: some
extraction, reached with the stream still good, finds after the leading white
space an exhausted text or text on which the numeric parser fails (it does not
begin a number, or the number is out of the range of `T`).  So it fails when
fewer than `S` numeric tokens are followed by the end of the text or by text on
which the parser fails, and it does not fail on `S` white-space separated
numeric tokens, each read whole by the parser as a value of `T`.  With a 32-bit
range `99999999999 2 3` fails at the first extraction, which stores the largest
value and consumes the digits; `1`, `2`, `3` separated by `\v` and `\f` are read
without failure. -/
theorem C14_read_fails_iff_extraction_fails
    (numGet : List Char → NumResult T) (buf : List Char)
    (v : Vector T S) (p : Point T S) (hv : v.Valid) (hp : p.Valid) :
    ((Vector.operator_shr numGet { buf := buf, failbit := false } v).1.failbit = true ↔
      ∃ k rest, k < S ∧
        (Vector.shrLoop numGet k { buf := buf, failbit := false } v).1 =
          { buf := rest, failbit := false } ∧
        (rest.dropWhile isspace = [] ∨
          (numGet (rest.dropWhile isspace)).failed = true))
    ∧ (∀ toks tail, toks.length = S → TokenInput numGet toks tail →
        (Vector.operator_shr numGet { buf := tokensText toks tail, failbit := false }
          v).1.failbit = false)
    ∧ (∀ toks tail, toks.length < S → TokenInput numGet toks tail →
        (tail.dropWhile isspace = [] ∨
          (numGet (tail.dropWhile isspace)).failed = true) →
        (Vector.operator_shr numGet { buf := tokensText toks tail, failbit := false }
          v).1.failbit = true)
    ∧ ((Point.operator_shr numGet { buf := buf, failbit := false } p).1.failbit = true ↔
      ∃ k rest, k < S ∧
        (Point.shrLoop numGet k { buf := buf, failbit := false } p).1 =
          { buf := rest, failbit := false } ∧
        (rest.dropWhile isspace = [] ∨
          (numGet (rest.dropWhile isspace)).failed = true))
    ∧ (∀ toks tail, toks.length = S → TokenInput numGet toks tail →
        (Point.operator_shr numGet { buf := tokensText toks tail, failbit := false }
          p).1.failbit = false)
    ∧ (∀ toks tail, toks.length < S → TokenInput numGet toks tail →
        (tail.dropWhile isspace = [] ∨
          (numGet (tail.dropWhile isspace)).failed = true) →
        (Point.operator_shr numGet { buf := tokensText toks tail, failbit := false }
          p).1.failbit = true)
    ∧ Vector.operator_shr (numGetCapped 2147483647)
        { buf := "99999999999 2 3".toList, failbit := false }
        (Vector.ctor_default : Vector ℚ 3) =
      ({ buf := " 2 3".toList, failbit := true }, ⟨3, [2147483647, 0, 0]⟩)
    ∧ Point.operator_shr numGetInt
        { buf := ['1', Char.ofNat 11, '2', Char.ofNat 12, '3'], failbit := false }
        (Point.ctor_default : Point ℚ 3) =
      ({ buf := [], failbit := false }, ⟨3, [1, 2, 3]⟩) := by
  refine ⟨?_, ?_, ?_, ?_, ?_, ?_, by decide, by decide⟩
  · unfold Vector.operator_shr
    rw [vector_shrLoop_eq, hv.1]
    simp only [vector_shrLoop_eq]
    exact readSlots_failbit_iff numGet S buf v.comp
  · intro toks tail hn hin
    unfold Vector.operator_shr
    rw [vector_shrLoop_eq, hv.1]
    show (readSlots numGet S _ v.comp).1.failbit = false
    have := readSlots_all_tokens numGet toks tail v.comp hin (by rw [hv.2, hn])
    rw [hn] at this
    rw [this]
  · intro toks tail hn hin hcond
    unfold Vector.operator_shr
    rw [vector_shrLoop_eq, hv.1]
    exact readSlots_short_input numGet S toks tail v.comp hn (by rw [hv.2]) hin hcond
  · unfold Point.operator_shr
    rw [point_shrLoop_eq, hp.1]
    simp only [point_shrLoop_eq]
    exact readSlots_failbit_iff numGet S buf p.coord
  · intro toks tail hn hin
    unfold Point.operator_shr
    rw [point_shrLoop_eq, hp.1]
    show (readSlots numGet S _ p.coord).1.failbit = false
    have := readSlots_all_tokens numGet toks tail p.coord hin (by rw [hp.2, hn])
    rw [hn] at this
    rw [this]
  · intro toks tail hn hin hcond
    unfold Point.operator_shr
    rw [point_shrLoop_eq, hp.1]
    exact readSlots_short_input numGet S toks tail p.coord hn (by rw [hp.2]) hin hcond

theorem C14_read_fails_iff_extraction_fails_witness :
    (⟨3, [7, 8, 9]⟩ : Vector ℚ 3).Valid ∧ (⟨3, [4, 5, 6]⟩ : Point ℚ 3).Valid ∧
    ((Vector.operator_shr numGetInt { buf := ['1', ' ', '(', '2'], failbit := false }
        (⟨3, [7, 8, 9]⟩ : Vector ℚ 3)).1.failbit = true ↔
      ∃ k rest, k < 3 ∧
        (Vector.shrLoop numGetInt k { buf := ['1', ' ', '(', '2'], failbit := false }
          (⟨3, [7, 8, 9]⟩ : Vector ℚ 3)).1 = { buf := rest, failbit := false } ∧
        (rest.dropWhile isspace = [] ∨
          (numGetInt (rest.dropWhile isspace) : NumResult ℚ).failed = true)) :=
  ⟨by decide, by decide,
    (C14_read_fails_iff_extraction_fails numGetInt ['1', ' ', '(', '2']
      (⟨3, [7, 8, 9]⟩ : Vector ℚ 3) (⟨3, [4, 5, 6]⟩ : Point ℚ 3) (by decide)
      (by decide)).1⟩

/-! ## Dimension invariant -/

theorem vector_valid_of_comp {α : Type} (a : Vector α S) (c : List α) (ha : a.Valid)
    (hc : c.length = a.comp.length) : ({ dim := a.dim, comp := c } : Vector α S).Valid :=
  ⟨ha.1, hc.trans ha.2⟩

theorem point_valid_of_coord {α : Type} (a : Point α S) (c : List α) (ha : a.Valid)
    (hc : c.length = a.coord.length) : ({ dim := a.dim, coord := c } : Point α S).Valid :=
  ⟨ha.1, hc.trans ha.2⟩

theorem stdCopy_length (src dst : List T) (n : Nat) :
    (stdCopy src n dst).length = dst.length :=
  forLoop_set_length (fun i _ => src.getD i 0) n dst

/-- Dimension invariant of `Vector`: every constructor yields `dim = S` and `S` components, and
every operation on valid vectors yields valid vectors, the moved-from source
included. -/
theorem vector_ops_valid (numGet : List Char → NumResult T) (is : IStream)
    (a b : Vector T S) (mem values : List T) (s x : T) (idx : Nat)
    (ha : a.Valid) (hb : b.Valid) (hm : mem.length = S) :
    (Vector.ctor_default : Vector T S).Valid
    ∧ (Vector.ctor_copy mem a).Valid
    ∧ (∀ r : Vector T S, Vector.ctor_initializer_list values = .ok r → r.Valid)
    ∧ (Vector.ctor_pointer values : Vector T S).Valid
    ∧ (Vector.ctor_value s : Vector T S).Valid
    ∧ (Vector.operator_assign a b).Valid
    ∧ (Vector.operator_assign_move a b).1.Valid
    ∧ (Vector.operator_assign_move a b).2.Valid
    ∧ (Vector.operator_add_assign a b).Valid
    ∧ (Vector.operator_sub_assign a b).Valid
    ∧ (Vector.operator_mul_assign a s).Valid
    ∧ (Vector.operator_div_assign a s).Valid
    ∧ (Vector.operator_add a b).Valid
    ∧ (Vector.operator_sub a b).Valid
    ∧ (Vector.operator_mul_scalar a s).Valid
    ∧ (Vector.operator_div_scalar a s).Valid
    ∧ (Vector.assign_index a idx x).Valid
    ∧ (Vector.operator_shr numGet is a).2.Valid
    ∧ (∀ r, (Vector.cross a b).1 = .ok r → r.Valid)
    ∧ (Vector.cross a b).2.Valid := by
  have hdef : (Vector.ctor_default : Vector T S).Valid := vector_ctor_default_valid
  refine ⟨hdef, ?_, ?_, ?_, ?_, ?_, ?_, ?_, ?_, ?_, ?_, ?_, ?_, ?_, ?_, ?_, ?_, ?_, ?_, ?_⟩
  · rw [vector_ctor_copy_eq mem a ha hm]; exact ha
  · intro r hr
    rw [vector_ctor_initializer_list_eq] at hr
    by_cases h : values.length = S
    · rw [if_pos h] at hr
      cases hr
      exact ⟨rfl, h⟩
    · rw [if_neg h] at hr
      cases hr
  · exact vector_valid_of_comp _ _ hdef (forLoop_set_length (fun i _ => values.getD i 0) _ _)
  · exact vector_valid_of_comp _ _ hdef (forLoop_set_length (fun _ _ => s) _ _)
  · exact ⟨hb.1, (stdCopy_length _ _ _).trans ha.2⟩
  · exact ⟨hb.1, (stdCopy_length _ _ _).trans ha.2⟩
  · exact vector_valid_of_comp _ _ hb (forLoop_set_length (fun _ _ => 0) _ _)
  · exact vector_valid_of_comp _ _ ha
      (forLoop_set_length (fun i c => c.getD i 0 + b.comp.getD i 0) _ _)
  · exact vector_valid_of_comp _ _ ha
      (forLoop_set_length (fun i c => c.getD i 0 - b.comp.getD i 0) _ _)
  · exact vector_valid_of_comp _ _ ha (forLoop_set_length (fun i c => c.getD i 0 * s) _ _)
  · exact vector_valid_of_comp _ _ ha (forLoop_set_length (fun i c => c.getD i 0 / s) _ _)
  · exact vector_valid_of_comp _ _ ha
      (forLoop_set_length (fun i c => c.getD i 0 + b.comp.getD i 0) _ _)
  · exact vector_valid_of_comp _ _ ha
      (forLoop_set_length (fun i c => c.getD i 0 - b.comp.getD i 0) _ _)
  · exact vector_valid_of_comp _ _ ha (forLoop_set_length (fun i c => c.getD i 0 * s) _ _)
  · exact vector_valid_of_comp _ _ ha (forLoop_set_length (fun i c => c.getD i 0 / s) _ _)
  · exact vector_valid_of_comp _ _ ha (List.length_set _ _ _)
  · unfold Vector.operator_shr
    rw [vector_shrLoop_eq]
    exact vector_valid_of_comp _ _ ha (readSlots_length numGet _ _ _)
  · intro r hr
    unfold Vector.cross at hr
    by_cases h : a.dim ≠ 3 ∨ b.dim ≠ 3
    · simp only [if_pos h] at hr
      cases hr
    · simp only [if_neg h] at hr
      cases hr
      exact ⟨rfl, by simp [Vector.assign_index, Vector.ctor_default, arrayInit_length]⟩
  · unfold Vector.cross
    by_cases h : a.dim ≠ 3 ∨ b.dim ≠ 3
    · simp only [if_pos h]; exact ha
    · simp only [if_neg h]; exact ha

/-- Dimension invariant of `Point`: every constructor yields `dim = S` and `S` coordonents, and
every operation on valid points yields valid points, the moved-from source
included. -/
theorem point_ops_valid (numGet : List Char → NumResult T) (is : IStream)
    (a b : Point T S) (mem values : List T) (s x : T) (idx : Nat)
    (ha : a.Valid) (hb : b.Valid) (hm : mem.length = S) :
    (Point.ctor_default : Point T S).Valid
    ∧ (Point.ctor_copy mem a).Valid
    ∧ (∀ r : Point T S, Point.ctor_initializer_list values = .ok r → r.Valid)
    ∧ (Point.ctor_pointer values : Point T S).Valid
    ∧ (Point.ctor_value s : Point T S).Valid
    ∧ (Point.operator_assign a b).Valid
    ∧ (Point.operator_assign_move a b).1.Valid
    ∧ (Point.operator_assign_move a b).2.Valid
    ∧ (Point.operator_add_assign a b).Valid
    ∧ (Point.operator_sub_assign a b).Valid
    ∧ (Point.operator_mul_assign a s).Valid
    ∧ (Point.operator_div_assign a s).Valid
    ∧ (Point.operator_add a b).Valid
    ∧ (Point.operator_sub a b).Valid
    ∧ (Point.operator_mul_scalar a s).Valid
    ∧ (Point.operator_div_scalar a s).Valid
    ∧ (Point.assign_index a idx x).Valid
    ∧ (Point.operator_shr numGet is a).2.Valid
    ∧ (Point.operator_add_assign_scalar a s).Valid
    ∧ (Point.operator_sub_assign_scalar a s).Valid
    ∧ (Point.operator_add_scalar a s).Valid
    ∧ (Point.operator_sub_scalar a s).Valid := by
  have hdef : (Point.ctor_default : Point T S).Valid := point_ctor_default_valid
  refine ⟨hdef, ?_, ?_, ?_, ?_, ?_, ?_, ?_, ?_, ?_, ?_, ?_, ?_, ?_, ?_, ?_, ?_, ?_, ?_, ?_, ?_,
    ?_⟩
  · rw [point_ctor_copy_eq mem a ha hm]; exact ha
  · intro r hr
    rw [point_ctor_initializer_list_eq] at hr
    by_cases h : values.length = S
    · rw [if_pos h] at hr
      cases hr
      exact ⟨rfl, h⟩
    · rw [if_neg h] at hr
      cases hr
  · exact point_valid_of_coord _ _ hdef (forLoop_set_length (fun i _ => values.getD i 0) _ _)
  · exact point_valid_of_coord _ _ hdef (forLoop_set_length (fun _ _ => s) _ _)
  · exact ⟨hb.1, (stdCopy_length _ _ _).trans ha.2⟩
  · exact ⟨hb.1, (stdCopy_length _ _ _).trans ha.2⟩
  · exact point_valid_of_coord _ _ hb (forLoop_set_length (fun _ _ => 0) _ _)
  · exact point_valid_of_coord _ _ ha
      (forLoop_set_length (fun i c => c.getD i 0 + b.coord.getD i 0) _ _)
  · exact point_valid_of_coord _ _ ha
      (forLoop_set_length (fun i c => c.getD i 0 - b.coord.getD i 0) _ _)
  · exact point_valid_of_coord _ _ ha (forLoop_set_length (fun i c => c.getD i 0 * s) _ _)
  · exact point_valid_of_coord _ _ ha (forLoop_set_length (fun i c => c.getD i 0 / s) _ _)
  · exact point_valid_of_coord _ _ ha
      (forLoop_set_length (fun i c => c.getD i 0 + b.coord.getD i 0) _ _)
  · exact point_valid_of_coord _ _ ha
      (forLoop_set_length (fun i c => c.getD i 0 - b.coord.getD i 0) _ _)
  · exact point_valid_of_coord _ _ ha (forLoop_set_length (fun i c => c.getD i 0 * s) _ _)
  · exact point_valid_of_coord _ _ ha (forLoop_set_length (fun i c => c.getD i 0 / s) _ _)
  · exact point_valid_of_coord _ _ ha (List.length_set _ _ _)
  · unfold Point.operator_shr
    rw [point_shrLoop_eq]
    exact point_valid_of_coord _ _ ha (readSlots_length numGet _ _ _)
  · exact point_valid_of_coord _ _ ha (forLoop_set_length (fun i c => c.getD i 0 + s) _ _)
  · exact point_valid_of_coord _ _ ha (forLoop_set_length (fun i c => c.getD i 0 - s) _ _)
  · exact point_valid_of_coord _ _ ha (forLoop_set_length (fun i c => c.getD i 0 + s) _ _)
  · exact point_valid_of_coord _ _ ha (forLoop_set_length (fun i c => c.getD i 0 - s) _ _)

/-- C15: every constructor of `Vector` and of `Point` yields `dim = S` and exactly
`S` components, and copy and move assignment, `+=`, `-=`, `*=`, `/=`, the
non-mutating arithmetic operators, index assignment, `operator>>` and `cross`,
applied to valid objects, leave `dim = S` and `S` components in their result and
in every object they write, the moved-from source included. -/
theorem C15_dimension_invariant (numGet : List Char → NumResult T)
    (is : IStream) (a b : Vector T S) (p q : Point T S) (mem values : List T) (s x : T)
    (idx : Nat) (ha : a.Valid) (hb : b.Valid) (hp : p.Valid) (hq : q.Valid)
    (hm : mem.length = S) :
    ((Vector.ctor_default : Vector T S).Valid
      ∧ (Vector.ctor_copy mem a).Valid
      ∧ (∀ r : Vector T S, Vector.ctor_initializer_list values = .ok r → r.Valid)
      ∧ (Vector.ctor_pointer values : Vector T S).Valid
      ∧ (Vector.ctor_value s : Vector T S).Valid
      ∧ (Vector.operator_assign a b).Valid
      ∧ (Vector.operator_assign_move a b).1.Valid
      ∧ (Vector.operator_assign_move a b).2.Valid
      ∧ (Vector.operator_add_assign a b).Valid
      ∧ (Vector.operator_sub_assign a b).Valid
      ∧ (Vector.operator_mul_assign a s).Valid
      ∧ (Vector.operator_div_assign a s).Valid
      ∧ (Vector.operator_add a b).Valid
      ∧ (Vector.operator_sub a b).Valid
      ∧ (Vector.operator_mul_scalar a s).Valid
      ∧ (Vector.operator_div_scalar a s).Valid
      ∧ (Vector.assign_index a idx x).Valid
      ∧ (Vector.operator_shr numGet is a).2.Valid
      ∧ (∀ r, (Vector.cross a b).1 = .ok r → r.Valid)
      ∧ (Vector.cross a b).2.Valid)
    ∧ ((Point.ctor_default : Point T S).Valid
      ∧ (Point.ctor_copy mem p).Valid
      ∧ (∀ r : Point T S, Point.ctor_initializer_list values = .ok r → r.Valid)
      ∧ (Point.ctor_pointer values : Point T S).Valid
      ∧ (Point.ctor_value s : Point T S).Valid
      ∧ (Point.operator_assign p q).Valid
      ∧ (Point.operator_assign_move p q).1.Valid
      ∧ (Point.operator_assign_move p q).2.Valid
      ∧ (Point.operator_add_assign p q).Valid
      ∧ (Point.operator_sub_assign p q).Valid
      ∧ (Point.operator_mul_assign p s).Valid
      ∧ (Point.operator_div_assign p s).Valid
      ∧ (Point.operator_add p q).Valid
      ∧ (Point.operator_sub p q).Valid
      ∧ (Point.operator_mul_scalar p s).Valid
      ∧ (Point.operator_div_scalar p s).Valid
      ∧ (Point.assign_index p idx x).Valid
      ∧ (Point.operator_shr numGet is p).2.Valid
      ∧ (Point.operator_add_assign_scalar p s).Valid
      ∧ (Point.operator_sub_assign_scalar p s).Valid
      ∧ (Point.operator_add_scalar p s).Valid
      ∧ (Point.operator_sub_scalar p s).Valid) :=
  ⟨vector_ops_valid numGet is a b mem values s x idx ha hb hm,
    point_ops_valid numGet is p q mem values s x idx hp hq hm⟩

theorem C15_dimension_invariant_witness :
    (⟨2, [1, 2]⟩ : Vector ℚ 2).Valid ∧ (⟨2, [5, 7]⟩ : Vector ℚ 2).Valid ∧
    (⟨2, [3, 4]⟩ : Point ℚ 2).Valid ∧ (⟨2, [9, 8]⟩ : Point ℚ 2).Valid ∧
    ([0, 0] : List ℚ).length = 2 ∧
    (Vector.operator_assign_move (⟨2, [1, 2]⟩ : Vector ℚ 2) ⟨2, [5, 7]⟩).2.Valid ∧
    (Point.operator_div_scalar (⟨2, [3, 4]⟩ : Point ℚ 2) 2).Valid :=
  ⟨by decide, by decide, by decide, by decide, by decide,
    (C15_dimension_invariant numGetInt ⟨['1'], false⟩ (⟨2, [1, 2]⟩ : Vector ℚ 2)
      ⟨2, [5, 7]⟩ (⟨2, [3, 4]⟩ : Point ℚ 2) ⟨2, [9, 8]⟩ [0, 0] [1, 2] 2 6 1 (by decide)
      (by decide) (by decide) (by decide) (by decide)).1.2.2.2.2.2.2.2.1,
    (C15_dimension_invariant numGetInt ⟨['1'], false⟩ (⟨2, [1, 2]⟩ : Vector ℚ 2)
      ⟨2, [5, 7]⟩ (⟨2, [3, 4]⟩ : Point ℚ 2) ⟨2, [9, 8]⟩ [0, 0] [1, 2] 2 6 1 (by decide)
      (by decide) (by decide) (by decide)
      (by decide)).2.2.2.2.2.2.2.2.2.2.2.2.2.2.2.2.1⟩

/-! ## Component-wise arithmetic -/

/-- C16: for valid `Vector`s `a`, `b` and valid `Point`s `p`, `q`, `a + b` has
component `i` equal to `a[i] + b[i]` and `a - b` equal to `a[i] - b[i]`, for every
`i` in `[0, S)`; the result is what `+=` (resp. `-=`) leaves in a copy of the left
operand.  Both operators receive the left operand by value and the right one by
`const` reference: they have no access to the caller's objects. -/
theorem C16_add_sub_componentwise (a b : Vector T S) (p q : Point T S) (mem : List T)
    (ha : a.Valid) (_hb : b.Valid) (hp : p.Valid) (_hq : q.Valid) (hm : mem.length = S) :
    (∀ i, i < S →
        (Vector.operator_add a b).operator_index i = a.operator_index i + b.operator_index i)
    ∧ (∀ i, i < S →
        (Vector.operator_sub a b).operator_index i = a.operator_index i - b.operator_index i)
    ∧ Vector.operator_add a b = Vector.operator_add_assign (Vector.ctor_copy mem a) b
    ∧ Vector.operator_sub a b = Vector.operator_sub_assign (Vector.ctor_copy mem a) b
    ∧ (∀ i, i < S →
        (Point.operator_add p q).operator_index i = p.operator_index i + q.operator_index i)
    ∧ (∀ i, i < S →
        (Point.operator_sub p q).operator_index i = p.operator_index i - q.operator_index i)
    ∧ Point.operator_add p q = Point.operator_add_assign (Point.ctor_copy mem p) q
    ∧ Point.operator_sub p q = Point.operator_sub_assign (Point.ctor_copy mem p) q := by
  refine ⟨?_, ?_, ?_, ?_, ?_, ?_, ?_, ?_⟩
  · intro i hi
    show (forLoop (fun i c => c.set i (c.getD i 0 + b.comp.getD i 0)) a.dim a.comp).getD i 0
      = _
    rw [ha.1]
    exact forLoop_set_getD_lt (fun i x => x + b.comp.getD i 0) a.comp S i ha.2 hi
  · intro i hi
    show (forLoop (fun i c => c.set i (c.getD i 0 - b.comp.getD i 0)) a.dim a.comp).getD i 0
      = _
    rw [ha.1]
    exact forLoop_set_getD_lt (fun i x => x - b.comp.getD i 0) a.comp S i ha.2 hi
  · rw [vector_ctor_copy_eq mem a ha hm]; rfl
  · rw [vector_ctor_copy_eq mem a ha hm]; rfl
  · intro i hi
    show (forLoop (fun i c => c.set i (c.getD i 0 + q.coord.getD i 0)) p.dim
      p.coord).getD i 0 = _
    rw [hp.1]
    exact forLoop_set_getD_lt (fun i x => x + q.coord.getD i 0) p.coord S i hp.2 hi
  · intro i hi
    show (forLoop (fun i c => c.set i (c.getD i 0 - q.coord.getD i 0)) p.dim
      p.coord).getD i 0 = _
    rw [hp.1]
    exact forLoop_set_getD_lt (fun i x => x - q.coord.getD i 0) p.coord S i hp.2 hi
  · rw [point_ctor_copy_eq mem p hp hm]; rfl
  · rw [point_ctor_copy_eq mem p hp hm]; rfl

theorem C16_add_sub_componentwise_witness :
    (⟨2, [1, 2]⟩ : Vector ℚ 2).Valid ∧ (⟨2, [5, 7]⟩ : Vector ℚ 2).Valid ∧
    (⟨2, [3, 4]⟩ : Point ℚ 2).Valid ∧ (⟨2, [9, 8]⟩ : Point ℚ 2).Valid ∧
    ([6, 6] : List ℚ).length = 2 ∧
    (∀ i, i < 2 →
      (Vector.operator_add (⟨2, [1, 2]⟩ : Vector ℚ 2) ⟨2, [5, 7]⟩).operator_index i =
        Vector.operator_index (⟨2, [1, 2]⟩ : Vector ℚ 2) i
          + Vector.operator_index (⟨2, [5, 7]⟩ : Vector ℚ 2) i) ∧
    (∀ i, i < 2 →
      (Point.operator_sub (⟨2, [3, 4]⟩ : Point ℚ 2) ⟨2, [9, 8]⟩).operator_index i =
        Point.operator_index (⟨2, [3, 4]⟩ : Point ℚ 2) i
          - Point.operator_index (⟨2, [9, 8]⟩ : Point ℚ 2) i) :=
  ⟨by decide, by decide, by decide, by decide, by decide,
    (C16_add_sub_componentwise (⟨2, [1, 2]⟩ : Vector ℚ 2) ⟨2, [5, 7]⟩
      (⟨2, [3, 4]⟩ : Point ℚ 2) ⟨2, [9, 8]⟩ [6, 6] (by decide) (by decide) (by decide)
      (by decide) (by decide)).1,
    (C16_add_sub_componentwise (⟨2, [1, 2]⟩ : Vector ℚ 2) ⟨2, [5, 7]⟩
      (⟨2, [3, 4]⟩ : Point ℚ 2) ⟨2, [9, 8]⟩ [6, 6] (by decide) (by decide) (by decide)
      (by decide) (by decide)).2.2.2.2.2.1⟩

/-- C17: for a valid `Point` `p` and a scalar `s`, `p + s`, `p - s`, `p * s` and,
for nonzero `s`, `p / s` have component `i` equal to `p[i] + s`, `p[i] - s`,
`p[i] * s` and `p[i] / s`, for every `i` in `[0, S)`; likewise `a * s` and `a / s`
for a valid `Vector` `a`.  The operators receive their left operand by value. -/
theorem C17_scalar_ops_componentwise (a : Vector T S) (p : Point T S) (s : T)
    (ha : a.Valid) (hp : p.Valid) :
    (∀ i, i < S → (Point.operator_add_scalar p s).operator_index i = p.operator_index i + s)
    ∧ (∀ i, i < S →
        (Point.operator_sub_scalar p s).operator_index i = p.operator_index i - s)
    ∧ (∀ i, i < S →
        (Point.operator_mul_scalar p s).operator_index i = p.operator_index i * s)
    ∧ (s ≠ 0 → ∀ i, i < S →
        (Point.operator_div_scalar p s).operator_index i = p.operator_index i / s)
    ∧ (∀ i, i < S →
        (Vector.operator_mul_scalar a s).operator_index i = a.operator_index i * s)
    ∧ (s ≠ 0 → ∀ i, i < S →
        (Vector.operator_div_scalar a s).operator_index i = a.operator_index i / s) := by
  refine ⟨?_, ?_, ?_, ?_, ?_, ?_⟩
  · intro i hi
    show (forLoop (fun i c => c.set i (c.getD i 0 + s)) p.dim p.coord).getD i 0 = _
    rw [hp.1]
    exact forLoop_set_getD_lt (fun _ x => x + s) p.coord S i hp.2 hi
  · intro i hi
    show (forLoop (fun i c => c.set i (c.getD i 0 - s)) p.dim p.coord).getD i 0 = _
    rw [hp.1]
    exact forLoop_set_getD_lt (fun _ x => x - s) p.coord S i hp.2 hi
  · intro i hi
    show (forLoop (fun i c => c.set i (c.getD i 0 * s)) p.dim p.coord).getD i 0 = _
    rw [hp.1]
    exact forLoop_set_getD_lt (fun _ x => x * s) p.coord S i hp.2 hi
  · intro _ i hi
    show (forLoop (fun i c => c.set i (c.getD i 0 / s)) p.dim p.coord).getD i 0 = _
    rw [hp.1]
    exact forLoop_set_getD_lt (fun _ x => x / s) p.coord S i hp.2 hi
  · intro i hi
    show (forLoop (fun i c => c.set i (c.getD i 0 * s)) a.dim a.comp).getD i 0 = _
    rw [ha.1]
    exact forLoop_set_getD_lt (fun _ x => x * s) a.comp S i ha.2 hi
  · intro _ i hi
    show (forLoop (fun i c => c.set i (c.getD i 0 / s)) a.dim a.comp).getD i 0 = _
    rw [ha.1]
    exact forLoop_set_getD_lt (fun _ x => x / s) a.comp S i ha.2 hi

theorem C17_scalar_ops_componentwise_witness :
    (⟨2, [1, 2]⟩ : Vector ℚ 2).Valid ∧ (⟨2, [3, 4]⟩ : Point ℚ 2).Valid ∧
    (∀ i, i < 2 →
      (Point.operator_add_scalar (⟨2, [3, 4]⟩ : Point ℚ 2) 5).operator_index i =
        Point.operator_index (⟨2, [3, 4]⟩ : Point ℚ 2) i + 5) ∧
    (∀ i, i < 2 →
      (Vector.operator_div_scalar (⟨2, [1, 2]⟩ : Vector ℚ 2) 5).operator_index i =
        Vector.operator_index (⟨2, [1, 2]⟩ : Vector ℚ 2) i / 5) :=
  ⟨by decide, by decide,
    (C17_scalar_ops_componentwise (⟨2, [1, 2]⟩ : Vector ℚ 2) (⟨2, [3, 4]⟩ : Point ℚ 2) 5
      (by decide) (by decide)).1,
    (C17_scalar_ops_componentwise (⟨2, [1, 2]⟩ : Vector ℚ 2) (⟨2, [3, 4]⟩ : Point ℚ 2) 5
      (by decide) (by decide)).2.2.2.2.2 (by norm_num)⟩

/-! ## Orthogonality of the cross product -/

/-- The vector returned by `cross` on valid 3-dimensional vectors. -/
theorem vector_cross_ok (a b : Vector T 3) (ha : a.Valid) (hb : b.Valid) :
    (a.cross b).1 = .ok
      { dim := 3,
        comp := [a.comp.getD 1 0 * b.comp.getD 2 0 - a.comp.getD 2 0 * b.comp.getD 1 0,
                 a.comp.getD 2 0 * b.comp.getD 0 0 - a.comp.getD 0 0 * b.comp.getD 2 0,
                 a.comp.getD 0 0 * b.comp.getD 1 0 - a.comp.getD 1 0 * b.comp.getD 0 0] } := by
  simp [Vector.cross, ha.1, hb.1, Vector.ctor_default, arrayInit, Vector.assign_index,
    List.replicate]

/-- C18: for valid 3-dimensional vectors `a` and `b`, `a.cross(b)` returns a vector
`r` whose dot products with both operands, `a * r` and `b * r`, are 0. -/
theorem C18_cross_orthogonal (a b : Vector T 3) (ha : a.Valid) (hb : b.Valid) :
    ∃ r, (a.cross b).1 = .ok r ∧ Vector.operator_mul a r = 0
      ∧ Vector.operator_mul b r = 0 := by
  refine ⟨_, vector_cross_ok a b ha hb, ?_, ?_⟩
  · unfold Vector.operator_mul
    rw [dotLoop_eq_sum, ha.1]
    simp only [Finset.sum_range_succ, Finset.sum_range_zero, List.getD_cons_zero,
      List.getD_cons_succ]
    ring
  · unfold Vector.operator_mul
    rw [dotLoop_eq_sum, hb.1]
    simp only [Finset.sum_range_succ, Finset.sum_range_zero, List.getD_cons_zero,
      List.getD_cons_succ]
    ring

theorem C18_cross_orthogonal_witness :
    (⟨3, [1, 2, 3]⟩ : Vector ℚ 3).Valid ∧ (⟨3, [4, 5, 6]⟩ : Vector ℚ 3).Valid ∧
    ∃ r, (Vector.cross (⟨3, [1, 2, 3]⟩ : Vector ℚ 3) ⟨3, [4, 5, 6]⟩).1 = .ok r
      ∧ Vector.operator_mul (⟨3, [1, 2, 3]⟩ : Vector ℚ 3) r = 0
      ∧ Vector.operator_mul (⟨3, [4, 5, 6]⟩ : Vector ℚ 3) r = 0 :=
  ⟨by decide, by decide, C18_cross_orthogonal _ _ (by decide) (by decide)⟩

/-! ## `Vector` and `Point` on the shared interface -/

/-- C19: on the shared interface a `Vector` behaves as the `Point` with the same
`dim` and storage: the five constructors, copy and move assignment, `+=` and `-=`
with an instance, `*=` and `/=` with a scalar, the non-mutating `+`, `-`, `*`, `/`,
indexing, `==`, `!=`, `operator<<` and `operator>>` give the same components, the
same Boolean, the same text, the same stream state and the same exception. -/
theorem C19_vector_matches_point (numGet : List Char → NumResult T)
    (render : T → String) (is : IStream) (out : String) (a b : Vector T S)
    (mem values : List T) (s x : T) (idx : Nat) :
    (Vector.ctor_default : Vector T S).asPoint = Point.ctor_default
    ∧ (Vector.ctor_copy mem a).asPoint = Point.ctor_copy mem a.asPoint
    ∧ (Vector.ctor_initializer_list values : Except Error (Vector T S)).map
        Vector.asPoint = Point.ctor_initializer_list values
    ∧ (Vector.ctor_pointer values : Vector T S).asPoint = Point.ctor_pointer values
    ∧ (Vector.ctor_value s : Vector T S).asPoint = Point.ctor_value s
    ∧ (Vector.operator_assign a b).asPoint = Point.operator_assign a.asPoint b.asPoint
    ∧ (Vector.operator_assign_move a b).1.asPoint =
        (Point.operator_assign_move a.asPoint b.asPoint).1
    ∧ (Vector.operator_assign_move a b).2.asPoint =
        (Point.operator_assign_move a.asPoint b.asPoint).2
    ∧ (Vector.operator_add_assign a b).asPoint =
        Point.operator_add_assign a.asPoint b.asPoint
    ∧ (Vector.operator_sub_assign a b).asPoint =
        Point.operator_sub_assign a.asPoint b.asPoint
    ∧ (Vector.operator_mul_assign a s).asPoint = Point.operator_mul_assign a.asPoint s
    ∧ (Vector.operator_div_assign a s).asPoint = Point.operator_div_assign a.asPoint s
    ∧ (Vector.operator_add a b).asPoint = Point.operator_add a.asPoint b.asPoint
    ∧ (Vector.operator_sub a b).asPoint = Point.operator_sub a.asPoint b.asPoint
    ∧ (Vector.operator_mul_scalar a s).asPoint = Point.operator_mul_scalar a.asPoint s
    ∧ (Vector.operator_div_scalar a s).asPoint = Point.operator_div_scalar a.asPoint s
    ∧ Vector.operator_index a idx = Point.operator_index a.asPoint idx
    ∧ (Vector.assign_index a idx x).asPoint = Point.assign_index a.asPoint idx x
    ∧ Vector.operator_eq a b = Point.operator_eq a.asPoint b.asPoint
    ∧ Vector.operator_ne a b = Point.operator_ne a.asPoint b.asPoint
    ∧ Vector.operator_shl render out a = Point.operator_shl render out a.asPoint
    ∧ (Vector.operator_shr numGet is a).1 = (Point.operator_shr numGet is a.asPoint).1
    ∧ (Vector.operator_shr numGet is a).2.asPoint =
        (Point.operator_shr numGet is a.asPoint).2 := by
  have hshr : ∀ n, (Vector.shrLoop numGet n is a).1 = (Point.shrLoop numGet n is a.asPoint).1
      ∧ (Vector.shrLoop numGet n is a).2.asPoint =
        (Point.shrLoop numGet n is a.asPoint).2 := by
    intro n
    rw [vector_shrLoop_eq, point_shrLoop_eq]
    exact ⟨rfl, rfl⟩
  refine ⟨rfl, rfl, ?_, rfl, rfl, rfl, rfl, rfl, rfl, rfl, rfl, rfl, rfl, rfl, rfl, rfl,
    rfl, rfl, rfl, rfl, rfl, (hshr a.dim).1, (hshr a.dim).2⟩
  rw [vector_ctor_initializer_list_eq, point_ctor_initializer_list_eq]
  by_cases h : values.length = S
  · rw [if_pos h, if_pos h]; rfl
  · rw [if_neg h, if_neg h]; rfl

/-! ## Broadcast and buffer constructors -/

/-- C21: for every value `v`, the broadcast constructor of `Vector` and of `Point`
yields a valid instance whose every component `i` in `[0, S)` equals `v`. -/
theorem C21_broadcast_ctor (v : T) :
    (∀ i, i < S → (Vector.ctor_value v : Vector T S).operator_index i = v)
    ∧ (Vector.ctor_value v : Vector T S).Valid
    ∧ (∀ i, i < S → (Point.ctor_value v : Point T S).operator_index i = v)
    ∧ (Point.ctor_value v : Point T S).Valid
    ∧ (Vector.ctor_value 10 : Vector ℚ 3) = ⟨3, [10, 10, 10]⟩
    ∧ (Point.ctor_value 10 : Point ℚ 3) = ⟨3, [10, 10, 10]⟩ := by
  refine ⟨?_, ?_, ?_, ?_, by decide, by decide⟩
  · intro i hi
    exact forLoop_set_getD_lt (fun _ _ => v) (arrayInit S 0) S i (arrayInit_length S 0) hi
  · exact vector_valid_of_comp _ _ vector_ctor_default_valid
      (forLoop_set_length (fun _ _ => v) _ _)
  · intro i hi
    exact forLoop_set_getD_lt (fun _ _ => v) (arrayInit S 0) S i (arrayInit_length S 0) hi
  · exact point_valid_of_coord _ _ point_ctor_default_valid
      (forLoop_set_length (fun _ _ => v) _ _)

/-- The checked copy loop of the buffer constructor succeeds on a buffer with at
least `n` values and then agrees with the unchecked loop. -/
theorem checkedLoop_of_le (values : List T) (n : Nat) (c : List T)
    (h : n ≤ values.length) :
    forLoop (fun i c => c.bind (fun c => (values.get? i).map (fun x => c.set i x)))
        n (some c) =
      some (forLoop (fun i c => c.set i (values.getD i 0)) n c) := by
  induction n with
  | zero => rfl
  | succ n ih =>
    have hn : n < values.length := by omega
    show Option.bind (forLoop _ n (some c)) _ = _
    rw [ih (by omega)]
    simp [forLoop, List.get?_eq_getElem?, List.getD_eq_getElem?_getD,
      List.getElem?_eq_getElem hn]

/-- The checked copy loop of the buffer constructor reads outside a buffer with
fewer than `n` values. -/
theorem checkedLoop_of_lt (values : List T) (n : Nat) (c : List T)
    (h : values.length < n) :
    forLoop (fun i c => c.bind (fun c => (values.get? i).map (fun x => c.set i x)))
        n (some c) = none := by
  induction n with
  | zero => omega
  | succ n ih =>
    show Option.bind (forLoop _ n (some c)) _ = _
    by_cases hn : values.length < n
    · rw [ih hn]; rfl
    · have hle : n ≤ values.length := by omega
      have heq : values.length = n := by omega
      rw [checkedLoop_of_le values n c hle]
      simp [List.get?_eq_getElem?, List.getElem?_eq_none (Nat.le_of_eq heq)]

/-- The unchecked copy loop depends on the first `n` values of the buffer only. -/
theorem copyLoop_take (values : List T) (n : Nat) (c : List T) :
    forLoop (fun i c => c.set i (values.getD i 0)) n c =
      forLoop (fun i c => c.set i ((values.take n).getD i 0)) n c := by
  have h : ∀ m, m ≤ n → forLoop (fun i c => c.set i (values.getD i 0)) m c =
      forLoop (fun i c => c.set i ((values.take n).getD i 0)) m c := by
    intro m
    induction m with
    | zero => intro _; rfl
    | succ m ih =>
      intro hm
      have hlt : m < n := by omega
      show List.set _ m _ = List.set _ m _
      rw [ih (by omega)]
      congr 1
      simp [List.getD_eq_getElem?_getD, List.getElem?_take, hlt]
  exact h n (Nat.le_refl n)

/-- The storage the buffer constructor builds from a buffer of at least `S` values. -/
theorem copyLoop_eq_take (buffer : List T) (h : S ≤ buffer.length) :
    forLoop (fun i c => c.set i (buffer.getD i 0)) S (arrayInit S 0) = buffer.take S := by
  have hlen := forLoop_set_length (fun i _ => buffer.getD i 0) S (arrayInit S (0 : T))
  rw [arrayInit_length] at hlen
  apply list_eq_of_getD _ _ (by rw [hlen, List.length_take]; omega)
  intro j hj
  rw [hlen] at hj
  rw [forLoop_set_getD_lt (fun i _ => buffer.getD i 0) (arrayInit S 0) S j
    (arrayInit_length S 0) hj]
  simp [List.getD_eq_getElem?_getD, List.getElem?_take, hj]

/-- C22: from a buffer of at least `S` values the buffer constructor of `Vector` and
of `Point` builds the valid instance whose component `i` is `buffer[i]` for every
`i` in `[0, S)`: its storage is the first `S` values, values beyond them are
ignored (a 4-value buffer builds a 3-dimensional instance from its first three
values), and no read falls outside the buffer. -/
theorem C22_buffer_ctor (buffer : List T) (h : S ≤ buffer.length) :
    ((∀ i (hi : i < S), (Vector.ctor_pointer buffer : Vector T S).operator_index i =
          buffer.get ⟨i, Nat.lt_of_lt_of_le hi h⟩)
      ∧ (Vector.ctor_pointer buffer : Vector T S) = { dim := S, comp := buffer.take S }
      ∧ (Vector.ctor_pointer buffer : Vector T S) = Vector.ctor_pointer (buffer.take S)
      ∧ (Vector.ctor_pointer_checked buffer : Option (Vector T S)) =
          some (Vector.ctor_pointer buffer))
    ∧ ((∀ i (hi : i < S), (Point.ctor_pointer buffer : Point T S).operator_index i =
          buffer.get ⟨i, Nat.lt_of_lt_of_le hi h⟩)
      ∧ (Point.ctor_pointer buffer : Point T S) = { dim := S, coord := buffer.take S }
      ∧ (Point.ctor_pointer buffer : Point T S) = Point.ctor_pointer (buffer.take S)
      ∧ (Point.ctor_pointer_checked buffer : Option (Point T S)) =
          some (Point.ctor_pointer buffer))
    ∧ (Point.ctor_pointer [1, 2, 3, 4] : Point ℚ 3) = ⟨3, [1, 2, 3]⟩
    ∧ (Vector.ctor_pointer [1, 2, 3, 4] : Vector ℚ 3) = ⟨3, [1, 2, 3]⟩
    ∧ (∀ short : List T, short.length < S →
        (Vector.ctor_pointer_checked short : Option (Vector T S)) = none
        ∧ (Point.ctor_pointer_checked short : Option (Point T S)) = none) := by
  have hv : (Vector.ctor_pointer buffer : Vector T S) =
      { dim := S, comp := buffer.take S } := by
    show ({ dim := S, comp := forLoop _ S (arrayInit S 0) } : Vector T S) = _
    rw [copyLoop_eq_take buffer h]
  have hp : (Point.ctor_pointer buffer : Point T S) =
      { dim := S, coord := buffer.take S } := by
    show ({ dim := S, coord := forLoop _ S (arrayInit S 0) } : Point T S) = _
    rw [copyLoop_eq_take buffer h]
  have hget : ∀ i (hi : i < S),
      (buffer.take S).getD i 0 = buffer.get ⟨i, Nat.lt_of_lt_of_le hi h⟩ := by
    intro i hi
    have hi2 : i < buffer.length := Nat.lt_of_lt_of_le hi h
    simp [List.getD_eq_getElem?_getD, List.getElem?_take, hi, List.getElem?_eq_getElem hi2]
  refine ⟨⟨?_, hv, ?_, ?_⟩, ⟨?_, hp, ?_, ?_⟩, by decide, by decide, ?_⟩
  · intro i hi
    rw [hv]
    exact hget i hi
  · show ({ dim := S, comp := forLoop _ S (arrayInit S 0) } : Vector T S) =
      { dim := S, comp := forLoop _ S (arrayInit S 0) }
    rw [copyLoop_take buffer S]
  · show Option.map _ (forLoop _ S (some (arrayInit S 0))) = _
    rw [checkedLoop_of_le buffer S _ h]
    rfl
  · intro i hi
    rw [hp]
    exact hget i hi
  · show ({ dim := S, coord := forLoop _ S (arrayInit S 0) } : Point T S) =
      { dim := S, coord := forLoop _ S (arrayInit S 0) }
    rw [copyLoop_take buffer S]
  · show Option.map _ (forLoop _ S (some (arrayInit S 0))) = _
    rw [checkedLoop_of_le buffer S _ h]
    rfl
  · intro short hs
    constructor
    · show Option.map _ (forLoop _ S (some (arrayInit S 0))) = _
      rw [checkedLoop_of_lt short S _ hs]
      rfl
    · show Option.map _ (forLoop _ S (some (arrayInit S 0))) = _
      rw [checkedLoop_of_lt short S _ hs]
      rfl

theorem C22_buffer_ctor_witness :
    3 ≤ ([1, 2, 3, 4] : List ℚ).length ∧
    (Vector.ctor_pointer_checked ([1, 2, 3, 4] : List ℚ) : Option (Vector ℚ 3)) =
      some (Vector.ctor_pointer [1, 2, 3, 4])
    ∧ (Point.ctor_pointer ([1, 2, 3, 4] : List ℚ) : Point ℚ 3) =
      { dim := 3, coord := ([1, 2, 3, 4] : List ℚ).take 3 } :=
  ⟨by decide, (C22_buffer_ctor ([1, 2, 3, 4] : List ℚ) (by decide)).1.2.2.2,
    (C22_buffer_ctor ([1, 2, 3, 4] : List ℚ) (by decide)).2.1.2.1⟩

/-! ## Copies -/

/-- C23: for valid objects of one dimension (`Vector` or `Point`), copy construction
over storage of any content and copy assignment over any receiver yield exactly
the source: component `i` of the destination is component `i` of the source for
every `i` in `[0, S)`.  Each object holds its own storage (the member array), so
an index assignment or a compound operation applied to the copy gives the new
components from the source's values, which the source itself keeps. -/
theorem C23_copy_independent (src dst : Vector T S) (psrc pdst : Point T S)
    (mem : List T) (idx : Nat) (x : T) (hs : src.Valid) (hd : dst.Valid)
    (hps : psrc.Valid) (hpd : pdst.Valid) (hm : mem.length = S) :
    (Vector.ctor_copy mem src = src
      ∧ Vector.operator_assign dst src = src
      ∧ (∀ i, i < S → (Vector.ctor_copy mem src).operator_index i = src.operator_index i)
      ∧ (∀ i, i < S →
          (Vector.operator_assign dst src).operator_index i = src.operator_index i)
      ∧ (∀ i, i < S → idx < S →
          (Vector.assign_index (Vector.ctor_copy mem src) idx x).operator_index i =
            if i = idx then x else src.operator_index i)
      ∧ (∀ i, i < S →
          (Vector.operator_mul_assign (Vector.operator_assign dst src) x).operator_index i =
            src.operator_index i * x))
    ∧ (Point.ctor_copy mem psrc = psrc
      ∧ Point.operator_assign pdst psrc = psrc
      ∧ (∀ i, i < S → (Point.ctor_copy mem psrc).operator_index i = psrc.operator_index i)
      ∧ (∀ i, i < S →
          (Point.operator_assign pdst psrc).operator_index i = psrc.operator_index i)
      ∧ (∀ i, i < S → idx < S →
          (Point.assign_index (Point.ctor_copy mem psrc) idx x).operator_index i =
            if i = idx then x else psrc.operator_index i)
      ∧ (∀ i, i < S →
          (Point.operator_mul_assign (Point.operator_assign pdst psrc) x).operator_index i =
            psrc.operator_index i * x)) := by
  have hv1 := vector_ctor_copy_eq mem src hs hm
  have hv2 : Vector.operator_assign dst src = src := vector_ctor_copy_eq dst.comp src hs hd.2
  have hp1 := point_ctor_copy_eq mem psrc hps hm
  have hp2 : Point.operator_assign pdst psrc = psrc :=
    point_ctor_copy_eq pdst.coord psrc hps hpd.2
  refine ⟨⟨hv1, hv2, ?_, ?_, ?_, ?_⟩, ⟨hp1, hp2, ?_, ?_, ?_, ?_⟩⟩
  · intro i _; rw [hv1]
  · intro i _; rw [hv2]
  · intro i _ hidx
    rw [hv1]
    show (src.comp.set idx x).getD i 0 = _
    by_cases h : i = idx
    · subst h
      rw [if_pos rfl, getD_set_same _ _ _ (by rw [hs.2]; exact hidx)]
    · rw [if_neg h, getD_set_other _ _ _ _ (Ne.symm h)]
      rfl
  · intro i hi
    rw [hv2]
    show (forLoop (fun i c => c.set i (c.getD i 0 * x)) src.dim src.comp).getD i 0 = _
    rw [hs.1]
    exact forLoop_set_getD_lt (fun _ y => y * x) src.comp S i hs.2 hi
  · intro i _; rw [hp1]
  · intro i _; rw [hp2]
  · intro i _ hidx
    rw [hp1]
    show (psrc.coord.set idx x).getD i 0 = _
    by_cases h : i = idx
    · subst h
      rw [if_pos rfl, getD_set_same _ _ _ (by rw [hps.2]; exact hidx)]
    · rw [if_neg h, getD_set_other _ _ _ _ (Ne.symm h)]
      rfl
  · intro i hi
    rw [hp2]
    show (forLoop (fun i c => c.set i (c.getD i 0 * x)) psrc.dim psrc.coord).getD i 0 = _
    rw [hps.1]
    exact forLoop_set_getD_lt (fun _ y => y * x) psrc.coord S i hps.2 hi

theorem C23_copy_independent_witness :
    (⟨2, [1, 2]⟩ : Vector ℚ 2).Valid ∧ (⟨2, [5, 7]⟩ : Vector ℚ 2).Valid ∧
    (⟨2, [3, 4]⟩ : Point ℚ 2).Valid ∧ (⟨2, [9, 8]⟩ : Point ℚ 2).Valid ∧
    ([6, 6] : List ℚ).length = 2 ∧
    Vector.ctor_copy [6, 6] (⟨2, [1, 2]⟩ : Vector ℚ 2) = ⟨2, [1, 2]⟩ ∧
    Point.operator_assign (⟨2, [9, 8]⟩ : Point ℚ 2) ⟨2, [3, 4]⟩ = ⟨2, [3, 4]⟩ :=
  ⟨by decide, by decide, by decide, by decide, by decide,
    (C23_copy_independent (⟨2, [1, 2]⟩ : Vector ℚ 2) ⟨2, [5, 7]⟩
      (⟨2, [3, 4]⟩ : Point ℚ 2) ⟨2, [9, 8]⟩ [6, 6] 1 4 (by decide) (by decide)
      (by decide) (by decide) (by decide)).1.1,
    (C23_copy_independent (⟨2, [1, 2]⟩ : Vector ℚ 2) ⟨2, [5, 7]⟩
      (⟨2, [3, 4]⟩ : Point ℚ 2) ⟨2, [9, 8]⟩ [6, 6] 1 4 (by decide) (by decide)
      (by decide) (by decide) (by decide)).2.2.1⟩

/-! ## Iteration and direct storage access -/

/-- The range-based loop from offset `it` to the end of the storage, given enough
iterations, visits the slots from `it` on, in order. -/
theorem rangeFor_eq_drop (c : List T) (fuel it : Nat) (hit : it ≤ c.length)
    (hf : c.length - it ≤ fuel) : rangeFor c c.length fuel it = c.drop it := by
  induction fuel generalizing it with
  | zero =>
    have : it = c.length := by omega
    subst this
    simp [rangeFor]
  | succ fuel ih =>
    by_cases h : it = c.length
    · subst h
      simp [rangeFor]
    · have hlt : it < c.length := by omega
      show (if it ≠ c.length then c.getD it 0 :: rangeFor c c.length fuel (it + 1) else [])
        = _
      rw [if_pos h, ih (it + 1) (by omega) (by omega), List.drop_eq_getElem_cons hlt]
      simp [List.getD_eq_getElem?_getD, List.getElem?_eq_getElem hlt]

/-- C24: on a valid `Vector` or `Point`, the traversal from `begin()` to `end()`
stops after visiting exactly `S` elements, the `k`-th visited being component `k`,
and every traversal gives this same sequence; `data()[i]` is `operator[](i)`. -/
theorem C24_traversal_in_index_order (v : Vector T S) (p : Point T S) (fuel : Nat)
    (hv : v.Valid) (hp : p.Valid) (hf : S ≤ fuel) :
    (v.traverse fuel = v.comp
      ∧ (v.traverse fuel).length = S
      ∧ (∀ k, k < S → (v.traverse fuel).getD k 0 = v.operator_index k)
      ∧ (∀ fuel2, S ≤ fuel2 → v.traverse fuel2 = v.traverse fuel)
      ∧ (∀ i, v.deref (v.data + i) = v.operator_index i))
    ∧ (p.traverse fuel = p.coord
      ∧ (p.traverse fuel).length = S
      ∧ (∀ k, k < S → (p.traverse fuel).getD k 0 = p.operator_index k)
      ∧ (∀ fuel2, S ≤ fuel2 → p.traverse fuel2 = p.traverse fuel)
      ∧ (∀ i, p.deref (p.data + i) = p.operator_index i)) := by
  have hvt : ∀ f, S ≤ f → v.traverse f = v.comp := by
    intro f hf
    unfold Vector.traverse Vector.end_ Vector.begin
    rw [hv.1]
    have h := rangeFor_eq_drop v.comp f 0 (Nat.zero_le _) (by rw [hv.2]; omega)
    rw [hv.2] at h
    exact h
  have hpt : ∀ f, S ≤ f → p.traverse f = p.coord := by
    intro f hf
    unfold Point.traverse Point.end_ Point.begin
    rw [hp.1]
    have h := rangeFor_eq_drop p.coord f 0 (Nat.zero_le _) (by rw [hp.2]; omega)
    rw [hp.2] at h
    exact h
  refine ⟨⟨hvt fuel hf, ?_, ?_, ?_, ?_⟩, ⟨hpt fuel hf, ?_, ?_, ?_, ?_⟩⟩
  · rw [hvt fuel hf]; exact hv.2
  · intro k _; rw [hvt fuel hf]; rfl
  · intro f2 h2; rw [hvt f2 h2, hvt fuel hf]
  · intro i
    show v.comp.getD (0 + i) 0 = v.comp.getD i 0
    rw [Nat.zero_add]
  · rw [hpt fuel hf]; exact hp.2
  · intro k _; rw [hpt fuel hf]; rfl
  · intro f2 h2; rw [hpt f2 h2, hpt fuel hf]
  · intro i
    show p.coord.getD (0 + i) 0 = p.coord.getD i 0
    rw [Nat.zero_add]

theorem C24_traversal_in_index_order_witness :
    (⟨3, [5, 6, 7]⟩ : Vector ℚ 3).Valid ∧ (⟨3, [1, 2, 3]⟩ : Point ℚ 3).Valid ∧ 3 ≤ 4 ∧
    Vector.traverse 4 (⟨3, [5, 6, 7]⟩ : Vector ℚ 3) = [5, 6, 7] ∧
    Point.traverse 4 (⟨3, [1, 2, 3]⟩ : Point ℚ 3) = [1, 2, 3] :=
  ⟨by decide, by decide, by decide,
    (C24_traversal_in_index_order (⟨3, [5, 6, 7]⟩ : Vector ℚ 3)
      (⟨3, [1, 2, 3]⟩ : Point ℚ 3) 4 (by decide) (by decide) (by decide)).1.1,
    (C24_traversal_in_index_order (⟨3, [5, 6, 7]⟩ : Vector ℚ 3)
      (⟨3, [1, 2, 3]⟩ : Point ℚ 3) 4 (by decide) (by decide) (by decide)).2.1⟩

/-! ## Output text read back -/

/-- The read loop on a good stream whose text begins with a character that is not
white space and on which the parser fails: the first extraction fails, stores
what the parser stores in slot 0, and nothing else is written. -/
theorem readSlots_bad_start (numGet : List Char → NumResult T) (n : Nat)
    (ch : Char) (rest left : List Char) (st : T) (c : List T) (hn : 0 < n)
    (hws : isspace ch = false) (hbad : numGet (ch :: rest) = .failure st left) :
    readSlots numGet n { buf := ch :: rest, failbit := false } c =
      ({ buf := left, failbit := true }, c.set 0 st) := by
  have h1 : readSlots numGet (0 + 1) { buf := ch :: rest, failbit := false } c =
      ({ buf := left, failbit := true }, c.set 0 st) := by
    rw [readSlots_succ]
    show ((extract numGet { buf := ch :: rest, failbit := false } (c.getD 0 0)).1,
      c.set 0 (extract numGet { buf := ch :: rest, failbit := false } (c.getD 0 0)).2) = _
    simp [extract, List.dropWhile_cons, hws, hbad]
  have hst := readSlots_stuck numGet (0 + 1) { buf := ch :: rest, failbit := false } c
    (by rw [h1]) (n - 1)
  rw [show 0 + 1 + (n - 1) = n by omega] at hst
  rw [hst, h1]

/-- The text `operator<<` writes on an empty stream for `d ≥ 1` slots begins with
the opening parenthesis. -/
theorem shlLoop_toList (r : Nat → String) (d : Nat) (hd : 0 < d) :
    ∃ rest, (forLoop (fun i out => (out ++ r i) ++ (if i ≠ d - 1 then ", " else ")")) d
      ("" ++ "(")).toList = '(' :: rest := by
  rw [shlLoop_eq r ("" ++ "(") d hd]
  exact ⟨_, by simp [String.toList]; rfl⟩

/-- C25: the two text formats do not round-trip.  For `S ≥ 1`, a numeric parser
that rejects text beginning with `(` (storing zero), and valid objects `p` (written) and `q`
(read into), `operator>>` on the text that `operator<<` wrote for `p` ends with
the stream failed; no component of `q` is taken from the text: component 0 is
set to 0 by the failed extraction and the others keep their values, whatever
`p` was.  The text of `(10, 20, 30)` read into a fresh instance leaves
`(0, 0, 0)`. -/
theorem C25_output_not_readable (numGet : List Char → NumResult T)
    (render : T → String) (p q : Vector T S) (pp pq : Point T S) (hS : 0 < S)
    (hp : p.Valid) (hq : q.Valid) (hpp : pp.Valid) (hpq : pq.Valid)
    (hparen : ∀ rest, ∃ left, numGet ('(' :: rest) = .failure 0 left) :
    (Vector.operator_shr numGet
        { buf := (Vector.operator_shl render "" p).toList, failbit := false } q).1.failbit
      = true
    ∧ (Vector.operator_shr numGet
        { buf := (Vector.operator_shl render "" p).toList, failbit := false } q).2
      = q.assign_index 0 0
    ∧ (Point.operator_shr numGet
        { buf := (Point.operator_shl render "" pp).toList, failbit := false } pq).1.failbit
      = true
    ∧ (Point.operator_shr numGet
        { buf := (Point.operator_shl render "" pp).toList, failbit := false } pq).2
      = pq.assign_index 0 0
    ∧ (Vector.operator_shr numGetInt
        { buf := (Vector.operator_shl (fun x : ℚ => toString x.num) ""
            (⟨3, [10, 20, 30]⟩ : Vector ℚ 3)).toList, failbit := false }
        (Vector.ctor_default : Vector ℚ 3)).2 = ⟨3, [0, 0, 0]⟩
    ∧ (Point.operator_shr numGetInt
        { buf := (Point.operator_shl (fun x : ℚ => toString x.num) ""
            (⟨3, [10, 20, 30]⟩ : Point ℚ 3)).toList, failbit := false }
        (Point.ctor_default : Point ℚ 3)).1.failbit = true := by
  have hopen : isspace '(' = false := by decide
  obtain ⟨rv, hrv⟩ : ∃ rest, (Vector.operator_shl render "" p).toList = '(' :: rest := by
    unfold Vector.operator_shl
    rw [hp.1]
    exact shlLoop_toList (fun i => render (p.comp.getD i 0)) S hS
  obtain ⟨rp, hrp⟩ : ∃ rest, (Point.operator_shl render "" pp).toList = '(' :: rest := by
    unfold Point.operator_shl
    rw [hpp.1]
    exact shlLoop_toList (fun i => render (pp.coord.getD i 0)) S hS
  obtain ⟨lv, hlv⟩ := hparen rv
  obtain ⟨lp, hlp⟩ := hparen rp
  have hv : Vector.operator_shr numGet { buf := '(' :: rv, failbit := false } q =
      ({ buf := lv, failbit := true }, q.assign_index 0 0) := by
    unfold Vector.operator_shr
    rw [vector_shrLoop_eq, hq.1,
      readSlots_bad_start numGet S '(' rv lv 0 q.comp hS hopen hlv]
    simp only [Vector.assign_index, hq.1]
  have hpt : Point.operator_shr numGet { buf := '(' :: rp, failbit := false } pq =
      ({ buf := lp, failbit := true }, pq.assign_index 0 0) := by
    unfold Point.operator_shr
    rw [point_shrLoop_eq, hpq.1,
      readSlots_bad_start numGet S '(' rp lp 0 pq.coord hS hopen hlp]
    simp only [Point.assign_index, hpq.1]
  rw [hrv, hrp, hv, hpt]
  exact ⟨rfl, rfl, rfl, rfl, by decide, by decide⟩

/-- The decimal parser rejects text that begins with an opening parenthesis: it
stores zero and consumes nothing. -/
theorem numGetInt_paren (rest : List Char) :
    ∃ left, (numGetInt ('(' :: rest) : NumResult T) = .failure 0 left := by
  have hnat : numGetNat ('(' :: rest) = none := by
    have hd : ('(' : Char).isDigit = false := by decide
    simp [numGetNat, List.takeWhile_cons, hd]
  refine ⟨'(' :: rest, ?_⟩
  unfold numGetInt
  split
  · rename_i heq
    exact absurd (List.cons.inj heq).1 (by decide)
  · rename_i heq
    exact absurd (List.cons.inj heq).1 (by decide)
  · rw [hnat]

theorem C25_output_not_readable_witness :
    0 < 2 ∧ (⟨2, [4, 5]⟩ : Vector ℚ 2).Valid ∧ (⟨2, [8, 9]⟩ : Vector ℚ 2).Valid ∧
    (⟨2, [6, 7]⟩ : Point ℚ 2).Valid ∧ (⟨2, [1, 1]⟩ : Point ℚ 2).Valid ∧
    (∀ rest, ∃ left, (numGetInt ('(' :: rest) : NumResult ℚ) = .failure 0 left) ∧
    (Vector.operator_shr numGetInt
        { buf := (Vector.operator_shl (fun x : ℚ => toString x.num) ""
            (⟨2, [4, 5]⟩ : Vector ℚ 2)).toList, failbit := false }
        (⟨2, [8, 9]⟩ : Vector ℚ 2)).1.failbit = true ∧
    (Vector.operator_shr numGetInt
        { buf := (Vector.operator_shl (fun x : ℚ => toString x.num) ""
            (⟨2, [4, 5]⟩ : Vector ℚ 2)).toList, failbit := false }
        (⟨2, [8, 9]⟩ : Vector ℚ 2)).2 =
      Vector.assign_index (⟨2, [8, 9]⟩ : Vector ℚ 2) 0 0 :=
  ⟨by decide, by decide, by decide, by decide, by decide, numGetInt_paren,
    (C25_output_not_readable numGetInt (fun x : ℚ => toString x.num)
      (⟨2, [4, 5]⟩ : Vector ℚ 2) ⟨2, [8, 9]⟩ (⟨2, [6, 7]⟩ : Point ℚ 2) ⟨2, [1, 1]⟩
      (by decide) (by decide) (by decide) (by decide) (by decide) numGetInt_paren).1,
    (C25_output_not_readable numGetInt (fun x : ℚ => toString x.num)
      (⟨2, [4, 5]⟩ : Vector ℚ 2) ⟨2, [8, 9]⟩ (⟨2, [6, 7]⟩ : Point ℚ 2) ⟨2, [1, 1]⟩
      (by decide) (by decide) (by decide) (by decide) (by decide) numGetInt_paren).2.1⟩

/-! ## Tolerance equality is not transitive -/

/-- C26: for every `S ≥ 1` there are valid instances `a`, `b`, `c` (of `Vector`, and
of `Point`), with every component 0, 1/10000 and 2/10000 respectively, such that
`a == b` and `b == c` are true and `a == c` is false: `operator==` is not
transitive. -/
theorem C26_eq_not_transitive (hS : 0 < S) :
    (∃ a b c : Vector T S, a.Valid ∧ b.Valid ∧ c.Valid
      ∧ a = Vector.ctor_value 0 ∧ b = Vector.ctor_value (1 / 10000)
      ∧ c = Vector.ctor_value (2 / 10000)
      ∧ Vector.operator_eq a b = true ∧ Vector.operator_eq b c = true
      ∧ Vector.operator_eq a c = false)
    ∧ (∃ a b c : Point T S, a.Valid ∧ b.Valid ∧ c.Valid
      ∧ a = Point.ctor_value 0 ∧ b = Point.ctor_value (1 / 10000)
      ∧ c = Point.ctor_value (2 / 10000)
      ∧ Point.operator_eq a b = true ∧ Point.operator_eq b c = true
      ∧ Point.operator_eq a c = false) := by
  have hval : ∀ x : T, ∀ i, i < S →
      (forLoop (fun i c => c.set i x) S (arrayInit S (0 : T))).getD i 0 = x := by
    intro x i hi
    exact forLoop_set_getD_lt (fun _ _ => x) (arrayInit S 0) S i (arrayInit_length S 0) hi
  have hvv : ∀ x : T, (Vector.ctor_value x : Vector T S).Valid := fun x =>
    vector_valid_of_comp _ _ vector_ctor_default_valid
      (forLoop_set_length (fun _ _ => x) _ _)
  have hpv : ∀ x : T, (Point.ctor_value x : Point T S).Valid := fun x =>
    point_valid_of_coord _ _ point_ctor_default_valid
      (forLoop_set_length (fun _ _ => x) _ _)
  have hvi : ∀ x : T, ∀ i, i < S → (Vector.ctor_value x : Vector T S).operator_index i = x :=
    hval
  have hpi : ∀ x : T, ∀ i, i < S → (Point.ctor_value x : Point T S).operator_index i = x :=
    hval
  have h1 : |(0 : T) - 1 / 10000| ≤ 1 / 10000 := by
    rw [abs_le]; constructor <;> norm_num
  have h2 : |(1 : T) / 10000 - 2 / 10000| ≤ 1 / 10000 := by
    rw [abs_le]; constructor <;> norm_num
  have h3 : ¬ |(0 : T) - 2 / 10000| ≤ 1 / 10000 := by
    rw [abs_le]; intro h; norm_num at h
  constructor
  · refine ⟨_, _, _, hvv 0, hvv (1 / 10000), hvv (2 / 10000), rfl, rfl, rfl, ?_, ?_, ?_⟩
    · rw [vector_operator_eq_iff]
      intro i hi
      rw [(hvv 0).1] at hi
      rw [hvi 0 i hi, hvi (1 / 10000) i hi]
      exact h1
    · rw [vector_operator_eq_iff]
      intro i hi
      rw [(hvv (1 / 10000)).1] at hi
      rw [hvi (1 / 10000) i hi, hvi (2 / 10000) i hi]
      exact h2
    · cases h : Vector.operator_eq (Vector.ctor_value 0 : Vector T S)
          (Vector.ctor_value (2 / 10000))
      · rfl
      · have := (vector_operator_eq_iff _ _).mp h 0 (by rw [(hvv 0).1]; exact hS)
        rw [hvi 0 0 hS, hvi (2 / 10000) 0 hS] at this
        exact absurd this h3
  · refine ⟨_, _, _, hpv 0, hpv (1 / 10000), hpv (2 / 10000), rfl, rfl, rfl, ?_, ?_, ?_⟩
    · rw [point_operator_eq_iff]
      intro i hi
      rw [(hpv 0).1] at hi
      rw [hpi 0 i hi, hpi (1 / 10000) i hi]
      exact h1
    · rw [point_operator_eq_iff]
      intro i hi
      rw [(hpv (1 / 10000)).1] at hi
      rw [hpi (1 / 10000) i hi, hpi (2 / 10000) i hi]
      exact h2
    · cases h : Point.operator_eq (Point.ctor_value 0 : Point T S)
          (Point.ctor_value (2 / 10000))
      · rfl
      · have := (point_operator_eq_iff _ _).mp h 0 (by rw [(hpv 0).1]; exact hS)
        rw [hpi 0 0 hS, hpi (2 / 10000) 0 hS] at this
        exact absurd this h3

theorem C26_eq_not_transitive_witness :
    0 < 1 ∧ ∃ a b c : Vector ℚ 1, a.Valid ∧ b.Valid ∧ c.Valid
      ∧ a = Vector.ctor_value 0 ∧ b = Vector.ctor_value (1 / 10000)
      ∧ c = Vector.ctor_value (2 / 10000)
      ∧ Vector.operator_eq a b = true ∧ Vector.operator_eq b c = true
      ∧ Vector.operator_eq a c = false :=
  ⟨by decide, (C26_eq_not_transitive (by decide)).1⟩

/-! ## Signed integer components -/

/-- A loop that clears a flag at the iterations where `P` holds leaves it set exactly
when `P` holds at no iteration. -/
theorem flagLoop_iff (P : Nat → Prop) [DecidablePred P] (n : Nat) :
    forLoop (fun i retval => if P i then false else retval) n true = true ↔
      ∀ i, i < n → ¬ P i := by
  induction n with
  | zero => simp [forLoop]
  | succ n ih =>
    show (if P n then false else forLoop _ n true) = true ↔ _
    by_cases h : P n
    · rw [if_pos h]
      constructor
      · intro hf; exact absurd hf (by simp)
      · intro hall; exact absurd h (hall n (Nat.lt_succ_self n))
    · rw [if_neg h, ih]
      constructor
      · intro hall i hi
        rcases Nat.lt_succ_iff_lt_or_eq.mp hi with h1 | h1
        · exact hall i h1
        · subst h1; exact h
      · intro hall i hi
        exact hall i (Nat.lt_succ_of_lt hi)

/-- A value representable in `w` bits is its own two's complement value. -/
theorem wrapInt_eq_self (w : Nat) (x : Int) (hw : 0 < w)
    (h1 : -2 ^ (w - 1) ≤ x) (h2 : x < 2 ^ (w - 1)) : wrapInt w x = x := by
  unfold wrapInt
  have hpow : (2 : Int) ^ w = 2 * 2 ^ (w - 1) := by
    obtain ⟨k, rfl⟩ : ∃ k, w = k + 1 := ⟨w - 1, by omega⟩
    simp [pow_succ, mul_comm]
  rw [Int.emod_eq_of_lt (by linarith) (by rw [hpow]; linarith)]
  ring

/-- An integer difference whose absolute value is representable exceeds the
tolerance exactly when it is not zero. -/
theorem int_diff_exceeds_tol_iff (w : Nat) (d : Int) (hw : 0 < w)
    (hd : |d| < 2 ^ (w - 1)) :
    (((wrapInt w |wrapInt w d| : Int) : ℚ) > GPV_POINTVECTOR_EVAL_TOL) ↔ d ≠ 0 := by
  obtain ⟨h1, h2⟩ := abs_lt.mp hd
  rw [wrapInt_eq_self w d hw (le_of_lt h1) h2,
    wrapInt_eq_self w |d| hw (by linarith [abs_nonneg d]) hd, tol_eq]
  constructor
  · intro h hz
    subst hz
    norm_num at h
  · intro hz
    have h3 : (1 : Int) ≤ |d| := Int.one_le_abs hz
    have hq : (1 : ℚ) ≤ ((|d| : Int) : ℚ) := by exact_mod_cast h3
    have : (1 : ℚ) / 10000 < 1 := by norm_num
    linarith

/-- The integer comparison loop, when every visited difference has a representable
absolute value, answers `true` exactly when the visited slots are equal. -/
theorem eqLoopInt_iff (w : Nat) (l r : List Int) (n : Nat) (hw : 0 < w)
    (hd : ∀ i, i < n → |l.getD i 0 - r.getD i 0| < 2 ^ (w - 1)) :
    eqLoopInt w l r n = true ↔ ∀ i, i < n → l.getD i 0 = r.getD i 0 := by
  unfold eqLoopInt
  rw [flagLoop_iff (fun i => ((wrapInt w |wrapInt w (l.getD i 0 - r.getD i 0)| : Int) : ℚ)
    > GPV_POINTVECTOR_EVAL_TOL) n]
  constructor
  · intro h i hi
    have := h i hi
    rw [int_diff_exceeds_tol_iff w _ hw (hd i hi)] at this
    have h0 : l.getD i 0 - r.getD i 0 = 0 := by
      by_contra hne; exact this hne
    omega
  · intro h i hi
    rw [int_diff_exceeds_tol_iff w _ hw (hd i hi), h i hi]
    simp

/-- C27, as stated, fails: with 32-bit `int` components, `a = (-2147483648)` and
`b = (0)` are in range and their difference `-2147483648` does not overflow, but
its absolute value is not representable; in two's complement `std::abs` returns
the negative value itself, which is not above the tolerance, so `a == b` is true
although the components differ. -/
theorem C27_most_negative_difference :
    (⟨1, [-2147483648]⟩ : Vector Int 1).Valid ∧ (⟨1, [0]⟩ : Vector Int 1).Valid
    ∧ -2 ^ (32 - 1) ≤ (-2147483648 : Int) - 0 ∧ (-2147483648 : Int) - 0 < 2 ^ (32 - 1)
    ∧ wrapInt 32 ((-2147483648 : Int) - 0) = -2147483648 - 0
    ∧ (-2147483648 : Int) ≠ 0
    ∧ Vector.operator_eq_int 32 (⟨1, [-2147483648]⟩ : Vector Int 1) ⟨1, [0]⟩ = true
    ∧ Point.operator_eq_int 32 (⟨1, [-2147483648]⟩ : Point Int 1) ⟨1, [0]⟩ = true := by
  have hw : wrapInt 32 |wrapInt 32 ((-2147483648 : Int) - 0)| = -2147483648 := by decide
  have hloop : eqLoopInt 32 [-2147483648] [0] 1 = true := by
    show (if ((wrapInt 32 |wrapInt 32 ((-2147483648 : Int) - 0)| : Int) : ℚ)
      > GPV_POINTVECTOR_EVAL_TOL then false else true) = true
    rw [hw, tol_eq, if_neg (by norm_num)]
  exact ⟨⟨rfl, rfl⟩, ⟨rfl, rfl⟩, by decide, by decide, by decide, by decide, hloop, hloop⟩

/-- C27, amended: for a signed integer component type computed in `w` bits and valid
objects (`Vector` or `Point`) such that every component difference `a[i] - b[i]`
has an absolute value below `2^(w-1)` (it does not overflow and is not the most
negative value), `a == b` is true if and only if `a[i] = b[i]` for every `i` in
`[0, S)`. -/
theorem C27_int_eq_is_exact (w : Nat) (a b : Vector Int S) (p q : Point Int S)
    (hw : 0 < w) (ha : a.Valid) (_hb : b.Valid) (hp : p.Valid) (_hq : q.Valid)
    (hd : ∀ i, i < S → |a.comp.getD i 0 - b.comp.getD i 0| < 2 ^ (w - 1))
    (hdp : ∀ i, i < S → |p.coord.getD i 0 - q.coord.getD i 0| < 2 ^ (w - 1)) :
    (Vector.operator_eq_int w a b = true ↔
        ∀ i, i < S → a.comp.getD i 0 = b.comp.getD i 0)
    ∧ (Point.operator_eq_int w p q = true ↔
        ∀ i, i < S → p.coord.getD i 0 = q.coord.getD i 0) := by
  constructor
  · unfold Vector.operator_eq_int
    rw [ha.1]
    exact eqLoopInt_iff w a.comp b.comp S hw hd
  · unfold Point.operator_eq_int
    rw [hp.1]
    exact eqLoopInt_iff w p.coord q.coord S hw hdp

theorem C27_int_eq_is_exact_witness :
    0 < 32 ∧ (⟨2, [1, 5]⟩ : Vector Int 2).Valid ∧ (⟨2, [1, 7]⟩ : Vector Int 2).Valid ∧
    (⟨2, [3, -4]⟩ : Point Int 2).Valid ∧ (⟨2, [3, -4]⟩ : Point Int 2).Valid ∧
    (∀ i, i < 2 → |([1, 5] : List Int).getD i 0 - ([1, 7] : List Int).getD i 0|
      < 2 ^ (32 - 1)) ∧
    (∀ i, i < 2 → |([3, -4] : List Int).getD i 0 - ([3, -4] : List Int).getD i 0|
      < 2 ^ (32 - 1)) ∧
    (Vector.operator_eq_int 32 (⟨2, [1, 5]⟩ : Vector Int 2) ⟨2, [1, 7]⟩ = true ↔
      ∀ i, i < 2 → ([1, 5] : List Int).getD i 0 = ([1, 7] : List Int).getD i 0) ∧
    (Point.operator_eq_int 32 (⟨2, [3, -4]⟩ : Point Int 2) ⟨2, [3, -4]⟩ = true ↔
      ∀ i, i < 2 → ([3, -4] : List Int).getD i 0 = ([3, -4] : List Int).getD i 0) :=
  ⟨by decide, ⟨rfl, rfl⟩, ⟨rfl, rfl⟩, ⟨rfl, rfl⟩, ⟨rfl, rfl⟩, by decide, by decide,
    C27_int_eq_is_exact 32 (⟨2, [1, 5]⟩ : Vector Int 2) ⟨2, [1, 7]⟩
      (⟨2, [3, -4]⟩ : Point Int 2) ⟨2, [3, -4]⟩ (by decide) ⟨rfl, rfl⟩ ⟨rfl, rfl⟩
      ⟨rfl, rfl⟩ ⟨rfl, rfl⟩ (by decide) (by decide)⟩

/-! ## Algebra of the cross and dot products -/

/-- C28: for valid 3-dimensional vectors, every component of `a.cross(b)` is the
negation of the same component of `b.cross(a)`, and `a.cross(a)` is the zero
vector. -/
theorem C28_cross_anticommutative (a b : Vector T 3) (ha : a.Valid) (hb : b.Valid) :
    (∃ r r', (a.cross b).1 = .ok r ∧ (b.cross a).1 = .ok r'
      ∧ ∀ i, i < 3 → r.operator_index i = - r'.operator_index i)
    ∧ (a.cross a).1 = .ok { dim := 3, comp := [0, 0, 0] }
    ∧ (a.cross a).1 = .ok Vector.ctor_default := by
  have haa : (a.cross a).1 = .ok { dim := 3, comp := [0, 0, 0] } := by
    rw [vector_cross_ok a a ha ha]
    simp [mul_comm]
  refine ⟨⟨_, _, vector_cross_ok a b ha hb, vector_cross_ok b a hb ha, ?_⟩, haa, ?_⟩
  · intro i hi
    interval_cases i <;>
      simp only [Vector.operator_index, List.getD_cons_zero, List.getD_cons_succ] <;> ring
  · rw [haa]
    simp [Vector.ctor_default, arrayInit, List.replicate]

theorem C28_cross_anticommutative_witness :
    (⟨3, [1, 2, 3]⟩ : Vector ℚ 3).Valid ∧ (⟨3, [4, 5, 6]⟩ : Vector ℚ 3).Valid ∧
    (Vector.cross (⟨3, [1, 2, 3]⟩ : Vector ℚ 3) ⟨3, [1, 2, 3]⟩).1 =
      .ok { dim := 3, comp := [0, 0, 0] } :=
  ⟨by decide, by decide,
    (C28_cross_anticommutative (⟨3, [1, 2, 3]⟩ : Vector ℚ 3) ⟨3, [4, 5, 6]⟩ (by decide)
      (by decide)).2.1⟩

/-- C29: for valid `S`-dimensional vectors `a`, `b`, `c` and a scalar `s`, the dot
product is symmetric and linear in its first argument: `a * b = b * a`,
`(a + b) * c = a * c + b * c` and `(a * s) * b = s * (a * b)`; by symmetry it is
linear in the second argument as well. -/
theorem C29_dot_symmetric_linear (a b c : Vector T S) (s : T)
    (ha : a.Valid) (hb : b.Valid) (_hc : c.Valid) :
    Vector.operator_mul a b = Vector.operator_mul b a
    ∧ Vector.operator_mul (Vector.operator_add a b) c =
        Vector.operator_mul a c + Vector.operator_mul b c
    ∧ Vector.operator_mul (Vector.operator_mul_scalar a s) b = s * Vector.operator_mul a b
    ∧ Vector.operator_mul c (Vector.operator_add a b) =
        Vector.operator_mul c a + Vector.operator_mul c b
    ∧ Vector.operator_mul b (Vector.operator_mul_scalar a s) =
        s * Vector.operator_mul b a := by
  have hdot : ∀ x y : Vector T S, x.Valid →
      Vector.operator_mul x y = ∑ i in Finset.range S, x.comp.getD i 0 * y.comp.getD i 0 := by
    intro x y hx
    unfold Vector.operator_mul
    rw [dotLoop_eq_sum, hx.1]
  have hsym : ∀ x y : Vector T S, x.Valid → y.Valid →
      Vector.operator_mul x y = Vector.operator_mul y x := by
    intro x y hx hy
    rw [hdot x y hx, hdot y x hy]
    exact Finset.sum_congr rfl (fun i _ => mul_comm _ _)
  have hadd : (Vector.operator_add a b).Valid :=
    vector_valid_of_comp _ _ ha
      (forLoop_set_length (fun i c => c.getD i 0 + b.comp.getD i 0) _ _)
  have hmul : (Vector.operator_mul_scalar a s).Valid :=
    vector_valid_of_comp _ _ ha (forLoop_set_length (fun i c => c.getD i 0 * s) _ _)
  have haddi : ∀ i, i < S →
      (Vector.operator_add a b).comp.getD i 0 = a.comp.getD i 0 + b.comp.getD i 0 := by
    intro i hi
    show (forLoop (fun i c => c.set i (c.getD i 0 + b.comp.getD i 0)) a.dim a.comp).getD i 0
      = _
    rw [ha.1]
    exact forLoop_set_getD_lt (fun i x => x + b.comp.getD i 0) a.comp S i ha.2 hi
  have hmuli : ∀ i, i < S →
      (Vector.operator_mul_scalar a s).comp.getD i 0 = a.comp.getD i 0 * s := by
    intro i hi
    show (forLoop (fun i c => c.set i (c.getD i 0 * s)) a.dim a.comp).getD i 0 = _
    rw [ha.1]
    exact forLoop_set_getD_lt (fun _ x => x * s) a.comp S i ha.2 hi
  have hlin1 : Vector.operator_mul (Vector.operator_add a b) c =
      Vector.operator_mul a c + Vector.operator_mul b c := by
    rw [hdot _ c hadd, hdot a c ha, hdot b c hb, ← Finset.sum_add_distrib]
    apply Finset.sum_congr rfl
    intro i hi
    rw [haddi i (Finset.mem_range.mp hi)]
    ring
  have hlin2 : Vector.operator_mul (Vector.operator_mul_scalar a s) b =
      s * Vector.operator_mul a b := by
    rw [hdot _ b hmul, hdot a b ha, Finset.mul_sum]
    apply Finset.sum_congr rfl
    intro i hi
    rw [hmuli i (Finset.mem_range.mp hi)]
    ring
  refine ⟨hsym a b ha hb, hlin1, hlin2, ?_, ?_⟩
  · rw [hsym c _ _hc hadd, hlin1, hsym a c ha _hc, hsym b c hb _hc]
  · rw [hsym b _ hb hmul, hlin2, hsym a b ha hb]

theorem C29_dot_symmetric_linear_witness :
    (⟨2, [1, 2]⟩ : Vector ℚ 2).Valid ∧ (⟨2, [5, 7]⟩ : Vector ℚ 2).Valid ∧
    (⟨2, [3, 4]⟩ : Vector ℚ 2).Valid ∧
    Vector.operator_mul (⟨2, [1, 2]⟩ : Vector ℚ 2) ⟨2, [5, 7]⟩ =
      Vector.operator_mul (⟨2, [5, 7]⟩ : Vector ℚ 2) ⟨2, [1, 2]⟩ ∧
    Vector.operator_mul (Vector.operator_add (⟨2, [1, 2]⟩ : Vector ℚ 2) ⟨2, [5, 7]⟩)
        ⟨2, [3, 4]⟩ =
      Vector.operator_mul (⟨2, [1, 2]⟩ : Vector ℚ 2) ⟨2, [3, 4]⟩
        + Vector.operator_mul (⟨2, [5, 7]⟩ : Vector ℚ 2) ⟨2, [3, 4]⟩ :=
  ⟨by decide, by decide, by decide,
    (C29_dot_symmetric_linear (⟨2, [1, 2]⟩ : Vector ℚ 2) ⟨2, [5, 7]⟩ ⟨2, [3, 4]⟩ 9
      (by decide) (by decide) (by decide)).1,
    (C29_dot_symmetric_linear (⟨2, [1, 2]⟩ : Vector ℚ 2) ⟨2, [5, 7]⟩ ⟨2, [3, 4]⟩ 9
      (by decide) (by decide) (by decide)).2.1⟩

end Claims

end geomdl
